import Mathlib

/-!
Verification development for the Auratyme job-scheduling and task-lifecycle
subsystem.

The definitions below are a shallow embedding of the TypeScript sources:

* `JobsEngine` embeds `backend/microservices/jobs/src/jobs/jobs.service.ts`
  (the BullMQ-backed job execution engine).  The BullMQ queue is modelled as
  a list of pending delayed jobs, job schedulers as a list of keyed cron
  schedulers, and the `uuidv4()` calls as a fresh-id counter threaded through
  the state.  Timestamps are integers (epoch milliseconds), so
  `new Date(s).getTime() - Date.now()` becomes `executionDate - now`.
* `Sched` embeds the schedules microservice: the drizzle `jobs` table
  (`jobs.repository.ts`), the `tasks` table (`tasks.repository.ts`), the
  gRPC client facade (`jobs.service.ts` of the schedules service, which
  composes an engine call with job-store bookkeeping), `TasksService`
  (`tasks.service.ts`) and `TaskEventsController` (`events.controller.ts`).

Fallible operations return `Except`, and every state-mutating operation also
returns the state it leaves behind (so partially-applied effects of a failed
call are observable, as they are in the source, where a thrown exception does
not roll back earlier awaited writes).
-/

namespace Auratyme

/-- Job kinds, `JobType` of both services (`SINGLE`/`CRON`). -/
inductive JobType where
  | SINGLE
  | CRON
deriving DecidableEq, Repr

namespace JobsEngine

/-- The data stored with a BullMQ job: the caller payload spread together
with the `ackEventName` (`{...payload, ackEventName}` in the source).
Payloads are `Record<string, string>`, modelled as association lists. -/
structure JobData where
  payload : List (String × String)
  ackEventName : String
deriving DecidableEq, Repr

/-- A pending delayed (single) job in the BullMQ queue.  `timestamp` is the
time the job was added, `delay` the configured delay, so the fire time is
`timestamp + delay`. -/
structure QJob where
  id : String
  name : String
  data : JobData
  delay : Int
  timestamp : Int
deriving DecidableEq, Repr

/-- A BullMQ job scheduler (recurring cron job), keyed by `key`. -/
structure JobScheduler where
  key : String
  pattern : String
  name : String
  data : JobData
deriving DecidableEq, Repr

/-- Engine-side durable state: the queue of pending single jobs, the cron
job schedulers, and a counter supplying the fresh ids that stand in for
`uuidv4()`. -/
structure EngineState where
  queue : List QJob
  schedulers : List JobScheduler
  nextId : Nat
deriving DecidableEq, Repr

/-- The fresh id the engine assigns at counter value `n` (stand-in for
`uuidv4()`: distinct calls yield distinct ids). -/
def freshId (n : Nat) : String := "uuid-" ++ toString n

/-- Failure causes of engine operations.  In the source every failure is
wrapped in `JobException`; the two distinct internal `throw new Error(...)`
sites (job absent / date not in the future) are kept apart here. -/
inductive JobError where
  | notFound (id : String)
  | invalidSchedule (id : String)
deriving DecidableEq, Repr

/-- `JobScheduleSingleDto` of the jobs service. -/
structure JobScheduleSingleDto where
  name : String
  executionDate : Int
  ackEventName : String
  payload : List (String × String)
deriving DecidableEq, Repr

/-- `JobScheduleCronDto` of the jobs service.  Note: it carries no key —
the scheduler id is generated inside `scheduleCron`. -/
structure JobScheduleCronDto where
  name : String
  cron : String
  ackEventName : String
  payload : List (String × String)
deriving DecidableEq, Repr

/-- `JobRescheduleSingleDto`. -/
structure JobRescheduleSingleDto where
  id : String
  executionDate : Int
deriving DecidableEq, Repr

/-- `JobRescheduleCronDto`. -/
structure JobRescheduleCronDto where
  id : String
  cron : String
deriving DecidableEq, Repr

/-- `JobUnscheduleSingleDto`. -/
structure JobUnscheduleSingleDto where
  id : String
deriving DecidableEq, Repr

/-- `JobUnscheduleCronDto`. -/
structure JobUnscheduleCronDto where
  id : String
deriving DecidableEq, Repr

/-- The `SingleJob` entity returned by the engine. -/
structure SingleJob where
  id : String
  name : String
  executionDate : Int
  type : JobType
deriving DecidableEq, Repr

/-- The `CronJob` entity returned by the engine. -/
structure CronJob where
  id : String
  name : String
  cron : String
  type : JobType
deriving DecidableEq, Repr

/-- BullMQ `upsertJobScheduler`: replaces the scheduler stored under `key`
if one exists, otherwise inserts a new one. -/
def upsertJobScheduler (schedulers : List JobScheduler) (key pattern name : String)
    (data : JobData) : List JobScheduler :=
  if schedulers.any (fun s => s.key == key) then
    schedulers.map (fun s =>
      if s.key == key then { key := key, pattern := pattern, name := name, data := data } else s)
  else
    schedulers ++ [{ key := key, pattern := pattern, name := name, data := data }]

/-- `JobsService.scheduleSingle` of the jobs service: computes
`delay = executionDate - now`, draws a fresh id and adds the job to the
queue.  There is no future-date check; a past `executionDate` simply yields
a negative delay. -/
def scheduleSingle (st : EngineState) (now : Int) (dto : JobScheduleSingleDto) :
    EngineState × Except JobError SingleJob :=
  let delay := dto.executionDate - now
  let id := freshId st.nextId
  let job : QJob :=
    { id := id, name := dto.name,
      data := { payload := dto.payload, ackEventName := dto.ackEventName },
      delay := delay, timestamp := now }
  ({ st with queue := st.queue ++ [job], nextId := st.nextId + 1 },
   .ok { id := id, name := dto.name, executionDate := dto.executionDate, type := .SINGLE })

/-- `JobsService.scheduleCron` of the jobs service: draws a fresh scheduler
id and upserts a job scheduler under it.  Because the id is freshly
generated on every call, the upsert never hits an existing key. -/
def scheduleCron (st : EngineState) (dto : JobScheduleCronDto) :
    EngineState × Except JobError CronJob :=
  let schedulerId := freshId st.nextId
  ({ st with
      schedulers := upsertJobScheduler st.schedulers schedulerId dto.cron dto.name
        { payload := dto.payload, ackEventName := dto.ackEventName },
      nextId := st.nextId + 1 },
   .ok { id := schedulerId, name := dto.name, cron := dto.cron, type := .CRON })

/-- `JobsService.rescheduleSingle`: looks the job up (`getJob`), fails if it
does not exist, fails if the new date is not strictly in the future
(`newDelay <= 0`), otherwise removes the job and re-adds it with the same
name, data and options (hence the same job id) and the new delay. -/
def rescheduleSingle (st : EngineState) (now : Int) (dto : JobRescheduleSingleDto) :
    EngineState × Except JobError SingleJob :=
  match st.queue.find? (fun j => j.id == dto.id) with
  | none => (st, .error (.notFound dto.id))
  | some job =>
    let newDelay := dto.executionDate - now
    if newDelay ≤ 0 then
      (st, .error (.invalidSchedule dto.id))
    else
      ({ st with queue := st.queue.filter (fun j => j.id != dto.id) ++
          [{ job with delay := newDelay, timestamp := now }] },
       .ok { id := job.id, name := job.name, executionDate := dto.executionDate,
             type := .SINGLE })

/-- `JobsService.rescheduleCron`: looks the scheduler up, fails if absent,
otherwise upserts under the existing key with the new pattern, keeping the
stored name and template data. -/
def rescheduleCron (st : EngineState) (dto : JobRescheduleCronDto) :
    EngineState × Except JobError CronJob :=
  match st.schedulers.find? (fun s => s.key == dto.id) with
  | none => (st, .error (.notFound dto.id))
  | some s =>
    ({ st with schedulers := upsertJobScheduler st.schedulers s.key dto.cron s.name s.data },
     .ok { id := s.key, name := s.name, cron := dto.cron, type := .CRON })

/-- `JobsService.unscheduleSingle`: looks the job up, fails if absent,
otherwise removes it from the queue. -/
def unscheduleSingle (st : EngineState) (dto : JobUnscheduleSingleDto) :
    EngineState × Except JobError SingleJob :=
  match st.queue.find? (fun j => j.id == dto.id) with
  | none => (st, .error (.notFound dto.id))
  | some job =>
    ({ st with queue := st.queue.filter (fun j => j.id != dto.id) },
     .ok { id := job.id, name := job.name,
           executionDate := job.timestamp + job.delay, type := .SINGLE })

/-- `JobsService.unscheduleCron`: looks the scheduler up, fails if absent,
otherwise removes it (`removeJobScheduler`). -/
def unscheduleCron (st : EngineState) (dto : JobUnscheduleCronDto) :
    EngineState × Except JobError CronJob :=
  match st.schedulers.find? (fun s => s.key == dto.id) with
  | none => (st, .error (.notFound dto.id))
  | some s =>
    ({ st with schedulers := st.schedulers.filter (fun x => x.key != s.key) },
     .ok { id := s.key, name := s.name, cron := s.pattern, type := .CRON })

end JobsEngine

namespace Sched

/-- `TaskStatus` of the schedules service. -/
inductive TaskStatus where
  | NOT_STARTED
  | IN_PROGRESS
  | DONE
  | FAILED
deriving DecidableEq, Repr

/-- The `tasks` table row (`tasks.schema.ts` / `DbTask`).  Nullable columns
are `Option`; `dueTo` is a timestamp column (integer epoch milliseconds
here), `createdAt`/`updatedAt` are maintained by the schema helpers
(`defaultNow()` on insert, `$onUpdateFn(() => new Date())` on update). -/
structure DbTask where
  id : String
  name : String
  description : Option String
  status : TaskStatus
  dueTo : Option Int
  «repeat» : Option String
  userId : String
  priority : Int
  fixed : Bool
  startTime : Option String
  endTime : Option String
  createdAt : Int
  updatedAt : Int
  scheduleId : String
deriving DecidableEq, Repr

/-- The `jobs` table row of the schedules service (`DbJob` — the Job Store
binding record `jobId -> {type, taskId}`). -/
structure DbJob where
  id : String
  type : JobType
  taskId : String
deriving DecidableEq, Repr

/-- Relational state of the schedules service: the `schedules` table
(modelled by its ids only — `TasksService` uses it purely for existence
checks), the `tasks` table and the `jobs` binding table. -/
structure DbState where
  schedules : List String
  tasks : List DbTask
  jobs : List DbJob
deriving DecidableEq, Repr

/-- Combined state seen from the schedules service: its database plus the
jobs microservice the gRPC client facade talks to. -/
structure SchedState where
  db : DbState
  engine : JobsEngine.EngineState
deriving DecidableEq, Repr

/-- Tri-state patch value of a PATCH field: `unset` is `undefined` (field
not mentioned), `null` is an explicit `null`, `set v` a provided value. -/
inductive Patch (α : Type) where
  | unset
  | null
  | set (value : α)
deriving DecidableEq, Repr

/-- Drizzle `set` semantics for one nullable column: `undefined` keeps the
old value, `null` clears it, a value overwrites it. -/
def Patch.apply {α : Type} : Patch α → Option α → Option α
  | .unset, old => old
  | .null, _ => none
  | .set v, _ => some v

/-- `TaskEvent` of the schedules service (ack event names). -/
def TaskEvent.DUE : String := "schedules.tasks.due"

/-- `TaskEvent.REPEATED`. -/
def TaskEvent.REPEATED : String := "schedules.tasks.repeated"

/-- `BrokerTask.SCHEDULE_SINGLE_JOB` (`broker-task.enum.ts`). -/
def BrokerTask.SCHEDULE_SINGLE_JOB : String := "jobs.schedule.single"

/-- `BrokerTask.SCHEDULE_CRON_JOB` (`broker-task.enum.ts`). -/
def BrokerTask.SCHEDULE_CRON_JOB : String := "jobs.schedule.cron"

/-- `TaskJobPayload` (`{taskId, taskName, userId}`) spread into the job
payload record. -/
def taskJobPayload (taskId taskName userId : String) : List (String × String) :=
  [("taskId", taskId), ("taskName", taskName), ("userId", userId)]

/-- The `where` clause `{id, userId?}` used by task find-one, update and
remove. -/
structure TaskWhere where
  id : String
  userId : Option String
deriving DecidableEq, Repr

/-- Whether a row matches a `where` clause: `eq(id)` always, `eq(userId)`
only when a `userId` is supplied (the source builds the SQL condition with
`options.where.userId ? eq(...) : undefined`). -/
def matchesWhere (w : TaskWhere) (t : DbTask) : Bool :=
  t.id == w.id && (match w.userId with
    | some u => t.userId == u
    | none => true)

/-- The `fields` object of `TaskUpdateDto`.  `dueTo`/`repeat`/`description`/
`startTime`/`endTime` are declared `?: T | null` in the source, hence
tri-state; the rest are plain optionals (`?: T`). -/
structure TaskUpdateFields where
  name : Option String
  description : Patch String
  priority : Option Int
  fixed : Option Bool
  dueTo : Patch Int
  «repeat» : Patch String
  status : Option TaskStatus
  scheduleId : Option String
  startTime : Patch String
  endTime : Patch String
deriving DecidableEq, Repr

/-- The all-`undefined` fields object (a patch that mentions nothing). -/
def TaskUpdateFields.empty : TaskUpdateFields :=
  { name := none, description := .unset, priority := none, fixed := none,
    dueTo := .unset, «repeat» := .unset, status := none, scheduleId := none,
    startTime := .unset, endTime := .unset }

/-- `TaskUpdateDto`. -/
structure TaskUpdateDto where
  «where» : TaskWhere
  fields : TaskUpdateFields
deriving DecidableEq, Repr

/-- `TaskCreateDto` (after zod validation: `dueTo`/`repeat`/`description`
default to `null` when absent, `status` to `NOT_STARTED`, `priority` to 0,
`fixed` to `false`). -/
structure TaskCreateDto where
  name : String
  userId : String
  scheduleId : String
  description : Option String
  dueTo : Option Int
  «repeat» : Option String
  startTime : Option String
  endTime : Option String
  priority : Int
  fixed : Bool
  status : TaskStatus
deriving DecidableEq, Repr

/-- `TaskFindOneDto` / `TaskRemoveDto` carry just a `where` clause. -/
structure TaskWhereDto where
  «where» : TaskWhere
deriving DecidableEq, Repr

/-- The subset of columns `TasksService.update` passes to
`tasksRepository.update` (its `fields` literal names exactly `description`,
`dueTo`, `name`, `repeat`, `scheduleId`, `status`). -/
structure RepoTaskPatch where
  description : Patch String
  dueTo : Patch Int
  name : Option String
  «repeat» : Patch String
  scheduleId : Option String
  status : Option TaskStatus
deriving DecidableEq, Repr

/-- Applying a repository patch to a row: drizzle skips `undefined` members
of the `set` object, writes `null`/values, and always refreshes `updatedAt`
via the schema's `$onUpdateFn`. -/
def applyRepoPatch (t : DbTask) (p : RepoTaskPatch) (now : Int) : DbTask :=
  { t with
      description := p.description.apply t.description,
      dueTo := p.dueTo.apply t.dueTo,
      name := p.name.getD t.name,
      «repeat» := p.«repeat».apply t.«repeat»,
      scheduleId := p.scheduleId.getD t.scheduleId,
      status := p.status.getD t.status,
      updatedAt := now }

namespace TasksRepository

/-- `TasksRepository.findOne`: first row matching the `where` clause, or
`null`. -/
def findOne (db : DbState) (w : TaskWhere) : Option DbTask :=
  db.tasks.find? (matchesWhere w)

/-- `TasksRepository.update`: updates every row matching the `where` clause
and returns the first updated row (`returning()[0]`), or `null` when
nothing matched. -/
def update (db : DbState) (now : Int) (w : TaskWhere) (p : RepoTaskPatch) :
    DbState × Option DbTask :=
  ({ db with tasks := db.tasks.map (fun t => if matchesWhere w t then applyRepoPatch t p now else t) },
   (db.tasks.filter (matchesWhere w)).head?.map (fun t => applyRepoPatch t p now))

/-- `TasksRepository.remove`: deletes every row matching the `where` clause
and returns the first deleted row, or `null`. -/
def remove (db : DbState) (w : TaskWhere) : DbState × Option DbTask :=
  ({ db with tasks := db.tasks.filter (fun t => !matchesWhere w t) },
   (db.tasks.filter (matchesWhere w)).head?)

end TasksRepository

namespace JobsRepository

/-- `JobsRepository.findByTaskId`: all binding rows of a task. -/
def findByTaskId (db : DbState) (taskId : String) : List DbJob :=
  db.jobs.filter (fun j => j.taskId == taskId)

/-- `JobsRepository.save`: inserts a binding row. -/
def save (db : DbState) (id : String) (ty : JobType) (taskId : String) : DbState :=
  { db with jobs := db.jobs ++ [{ id := id, type := ty, taskId := taskId }] }

/-- `JobsRepository.remove`: deletes the binding row with the given job id. -/
def remove (db : DbState) (id : String) : DbState :=
  { db with jobs := db.jobs.filter (fun j => j.id != id) }

end JobsRepository

/-- Errors surfaced by `TasksService` and the event handlers: the domain
not-found exceptions plus engine failures propagated through the facade. -/
inductive TasksErr where
  | scheduleNotFound (id : String)
  | taskNotFound (id : String)
  | job (e : JobsEngine.JobError)
deriving DecidableEq, Repr

namespace JobsService

open JobsEngine

/-- Facade `JobsService.scheduleSingle` (schedules service): remote
`scheduleSingle` on the engine, then `jobsRepository.save(job.id, SINGLE,
taskId)`. -/
def scheduleSingle (st : SchedState) (now : Int) (req : JobScheduleSingleDto)
    (taskId : String) : SchedState × Except JobError SingleJob :=
  match JobsEngine.scheduleSingle st.engine now req with
  | (eng, .ok job) =>
    ({ db := JobsRepository.save st.db job.id .SINGLE taskId, engine := eng }, .ok job)
  | (eng, .error e) => ({ st with engine := eng }, .error e)

/-- Facade `JobsService.scheduleCron`: engine call, then
`jobsRepository.save(job.id, CRON, taskId)`. -/
def scheduleCron (st : SchedState) (req : JobScheduleCronDto) (taskId : String) :
    SchedState × Except JobError CronJob :=
  match JobsEngine.scheduleCron st.engine req with
  | (eng, .ok job) =>
    ({ db := JobsRepository.save st.db job.id .CRON taskId, engine := eng }, .ok job)
  | (eng, .error e) => ({ st with engine := eng }, .error e)

/-- Facade `JobsService.rescheduleSingle`: pure engine passthrough, no Job
Store access. -/
def rescheduleSingle (st : SchedState) (now : Int) (req : JobRescheduleSingleDto) :
    SchedState × Except JobError SingleJob :=
  match JobsEngine.rescheduleSingle st.engine now req with
  | (eng, r) => ({ st with engine := eng }, r)

/-- Facade `JobsService.rescheduleCron`: pure engine passthrough, no Job
Store access. -/
def rescheduleCron (st : SchedState) (req : JobRescheduleCronDto) :
    SchedState × Except JobError CronJob :=
  match JobsEngine.rescheduleCron st.engine req with
  | (eng, r) => ({ st with engine := eng }, r)

/-- Facade `JobsService.unscheduleSingle`: engine call, then
`jobsRepository.remove(job.id)` on success. -/
def unscheduleSingle (st : SchedState) (req : JobUnscheduleSingleDto) :
    SchedState × Except JobError SingleJob :=
  match JobsEngine.unscheduleSingle st.engine req with
  | (eng, .ok job) =>
    ({ db := JobsRepository.remove st.db job.id, engine := eng }, .ok job)
  | (eng, .error e) => ({ st with engine := eng }, .error e)

/-- Facade `JobsService.unscheduleCron`: engine call, then
`jobsRepository.remove(job.id)` on success. -/
def unscheduleCron (st : SchedState) (req : JobUnscheduleCronDto) :
    SchedState × Except JobError CronJob :=
  match JobsEngine.unscheduleCron st.engine req with
  | (eng, .ok job) =>
    ({ db := JobsRepository.remove st.db job.id, engine := eng }, .ok job)
  | (eng, .error e) => ({ st with engine := eng }, .error e)

/-- Facade `JobsService.findByTaskId`: passthrough to the Job Store. -/
def findByTaskId (st : SchedState) (taskId : String) : List DbJob :=
  JobsRepository.findByTaskId st.db taskId

end JobsService

namespace TasksService

open JobsEngine

/-- Short-circuiting sequencing of the reconciliation steps of one service
call: a thrown (`.error`) step aborts the rest but keeps the state mutations
already performed, exactly like consecutive `await`s in the source. -/
def andThen (r : SchedState × Except TasksErr Unit)
    (f : SchedState → SchedState × Except TasksErr Unit) :
    SchedState × Except TasksErr Unit :=
  match r with
  | (st, .ok _) => f st
  | (st, .error e) => (st, .error e)

/-- Lifts a facade call whose result value is discarded into a step,
wrapping engine failures in `TasksErr.job`. -/
def step {α : Type} (r : SchedState × Except JobError α) :
    SchedState × Except TasksErr Unit :=
  match r with
  | (st, .ok _) => (st, .ok ())
  | (st, .error e) => (st, .error (.job e))

/-- The `fields?.dueTo` truthy branch of `TasksService.update`: no SINGLE
binding → `scheduleSingle` (ack event `TaskEvent.DUE`, payload
`{userId, taskId, taskName}` from the updated row); binding present →
`rescheduleSingle` on its job id. -/
def updateDueToSet (st : SchedState) (now : Int) (id : String) (updatedTask : DbTask)
    (v : Int) (jobs : List DbJob) : SchedState × Except TasksErr Unit :=
  match jobs.find? (fun j => j.type == JobType.SINGLE) with
  | none =>
    step (JobsService.scheduleSingle st now
      { ackEventName := TaskEvent.DUE, executionDate := v,
        name := BrokerTask.SCHEDULE_SINGLE_JOB,
        payload := taskJobPayload id updatedTask.name updatedTask.userId } id)
  | some job =>
    step (JobsService.rescheduleSingle st now { id := job.id, executionDate := v })

/-- The `fields?.dueTo === null` branch: unschedule the SINGLE binding if
one exists, else do nothing. -/
def updateDueToNull (st : SchedState) (jobs : List DbJob) :
    SchedState × Except TasksErr Unit :=
  match jobs.find? (fun j => j.type == JobType.SINGLE) with
  | none => (st, .ok ())
  | some job => step (JobsService.unscheduleSingle st { id := job.id })

/-- The `fields?.repeat` truthy branch: no CRON binding → `scheduleCron`
(ack event `TaskEvent.REPEATED`); binding present → `rescheduleCron`. -/
def updateRepeatSet (st : SchedState) (id : String) (updatedTask : DbTask)
    (v : String) (jobs : List DbJob) : SchedState × Except TasksErr Unit :=
  match jobs.find? (fun j => j.type == JobType.CRON) with
  | none =>
    step (JobsService.scheduleCron st
      { ackEventName := TaskEvent.REPEATED, cron := v,
        name := BrokerTask.SCHEDULE_CRON_JOB,
        payload := taskJobPayload id updatedTask.name updatedTask.userId } id)
  | some job =>
    step (JobsService.rescheduleCron st { cron := v, id := job.id })

/-- The `fields?.repeat === null` branch: unschedule the CRON binding if
one exists. -/
def updateRepeatNull (st : SchedState) (jobs : List DbJob) :
    SchedState × Except TasksErr Unit :=
  match jobs.find? (fun j => j.type == JobType.CRON) with
  | none => (st, .ok ())
  | some job => step (JobsService.unscheduleCron st { id := job.id })

/-- The job-reconciliation tail of `TasksService.update`: one
`findByTaskId` snapshot, then the four reconciliation branches in source
order (`fields?.dueTo` truthy, `fields?.dueTo === null`, `fields?.repeat`
truthy, `fields?.repeat === null`), short-circuiting like consecutive
`await`s. -/
def reconcileJobs (st1 : SchedState) (now : Int) (id : String) (updatedTask : DbTask)
    (fields : TaskUpdateFields) : SchedState × Except TasksErr Unit :=
  let jobs := JobsService.findByTaskId st1 id
  let r1 :=
    match fields.dueTo with
    | .set v => updateDueToSet st1 now id updatedTask v jobs
    | _ => (st1, .ok ())
  let r2 := andThen r1 (fun s =>
    match fields.dueTo with
    | .null => updateDueToNull s jobs
    | _ => (s, .ok ()))
  let r3 := andThen r2 (fun s =>
    match fields.«repeat» with
    | .set v => updateRepeatSet s id updatedTask v jobs
    | _ => (s, .ok ()))
  andThen r3 (fun s =>
    match fields.«repeat» with
    | .null => updateRepeatNull s jobs
    | _ => (s, .ok ()))

/-- `TasksService.update` (`tasks.service.ts`): schedule existence check for
a provided `scheduleId`; row update through the repository — note that the
`fields` literal passes `dueTo: fields?.dueTo ? new Date(fields?.dueTo) :
undefined`, so an explicit `null` reaches the repository as `undefined`
while `repeat: fields?.repeat` passes `null` through; `TaskNotFoundException`
when no row matched; then the job reconciliation. -/
def update (st : SchedState) (now : Int) (dto : TaskUpdateDto) :
    SchedState × Except TasksErr DbTask :=
  let fields := dto.fields
  let scheduleOk :=
    match fields.scheduleId with
    | some sid => st.db.schedules.contains sid
    | none => true
  if !scheduleOk then
    (st, .error (.scheduleNotFound (fields.scheduleId.getD "")))
  else
    let repoPatch : RepoTaskPatch :=
      { description := fields.description,
        dueTo := match fields.dueTo with
          | .set v => .set v
          | _ => .unset,
        name := fields.name,
        «repeat» := fields.«repeat»,
        scheduleId := fields.scheduleId,
        status := fields.status }
    match TasksRepository.update st.db now dto.«where» repoPatch with
    | (db1, none) => ({ st with db := db1 }, .error (.taskNotFound dto.«where».id))
    | (db1, some updatedTask) =>
      let st1 : SchedState := { st with db := db1 }
      match reconcileJobs st1 now dto.«where».id updatedTask fields with
      | (stF, .ok _) => (stF, .ok updatedTask)
      | (stF, .error e) => (stF, .error e)

/-- The scheduling tail of `TasksService.create`: `scheduleSingle` if the
stored row has a `dueTo`, then `scheduleCron` if it has a `repeat`. -/
def createJobs (st1 : SchedState) (now : Int) (dbTask : DbTask) :
    SchedState × Except TasksErr Unit :=
  let r1 :=
    match dbTask.dueTo with
    | some d =>
      step (JobsService.scheduleSingle st1 now
        { ackEventName := TaskEvent.DUE, executionDate := d,
          name := BrokerTask.SCHEDULE_SINGLE_JOB,
          payload := taskJobPayload dbTask.id dbTask.name dbTask.userId } dbTask.id)
    | none => (st1, .ok ())
  andThen r1 (fun s =>
    match dbTask.«repeat» with
    | some c =>
      step (JobsService.scheduleCron s
        { ackEventName := TaskEvent.REPEATED, cron := c,
          name := BrokerTask.SCHEDULE_CRON_JOB,
          payload := taskJobPayload dbTask.id dbTask.name dbTask.userId } dbTask.id)
    | none => (s, .ok ()))

/-- `TasksService.create`: schedule existence check, row insert (`dueTo`
stored as a timestamp when provided, else `null`; `createdAt`/`updatedAt`
from the schema defaults), then the scheduling calls of `createJobs`.
`newTaskId` stands for the `uuid().defaultRandom()` primary key the
database assigns. -/
def create (st : SchedState) (now : Int) (newTaskId : String) (dto : TaskCreateDto) :
    SchedState × Except TasksErr DbTask :=
  if !st.db.schedules.contains dto.scheduleId then
    (st, .error (.scheduleNotFound dto.scheduleId))
  else
    let dbTask : DbTask :=
      { id := newTaskId, name := dto.name, description := dto.description,
        status := dto.status, dueTo := dto.dueTo, «repeat» := dto.«repeat»,
        userId := dto.userId, priority := dto.priority, fixed := dto.fixed,
        startTime := dto.startTime, endTime := dto.endTime,
        createdAt := now, updatedAt := now, scheduleId := dto.scheduleId }
    let st1 : SchedState := { st with db := { st.db with tasks := st.db.tasks ++ [dbTask] } }
    match createJobs st1 now dbTask with
    | (stF, .ok _) => (stF, .ok dbTask)
    | (stF, .error e) => (stF, .error e)

/-- The `task.dueTo` branch of `TasksService.remove`: unschedule the
SINGLE binding found in the snapshot, if the task has a `dueTo` and such a
binding exists. -/
def unscheduleDue (st : SchedState) (task : DbTask) (jobs : List DbJob) :
    SchedState × Except TasksErr Unit :=
  match task.dueTo with
  | some _ =>
    (match jobs.find? (fun j => j.type == JobType.SINGLE) with
     | some job => step (JobsService.unscheduleSingle st { id := job.id })
     | none => (st, .ok ()))
  | none => (st, .ok ())

/-- The `task.repeat` branch of `TasksService.remove`: unschedule the CRON
binding found in the snapshot, if the task has a `repeat` and such a
binding exists. -/
def unscheduleRepeat (st : SchedState) (task : DbTask) (jobs : List DbJob) :
    SchedState × Except TasksErr Unit :=
  match task.«repeat» with
  | some _ =>
    (match jobs.find? (fun j => j.type == JobType.CRON) with
     | some job => step (JobsService.unscheduleCron st { id := job.id })
     | none => (st, .ok ()))
  | none => (st, .ok ())

/-- `TasksService.remove`: `findOne` (throwing `TaskNotFoundException` when
absent), one `findByTaskId` snapshot, unschedule the SINGLE binding if the
task has a `dueTo`, unschedule the CRON binding if it has a `repeat`, then
delete the row and return the task. -/
def remove (st : SchedState) (dto : TaskWhereDto) :
    SchedState × Except TasksErr DbTask :=
  match TasksRepository.findOne st.db dto.«where» with
  | none => (st, .error (.taskNotFound dto.«where».id))
  | some task =>
    let jobs := JobsService.findByTaskId st dto.«where».id
    let r2 := andThen (unscheduleDue st task jobs) (fun s =>
      unscheduleRepeat s task jobs)
    match r2 with
    | (stF, .ok _) =>
      let (db2, _) := TasksRepository.remove stF.db dto.«where»
      ({ stF with db := db2 }, .ok task)
    | (stF, .error e) => (stF, .error e)

/-- `TasksService.findOne`: repository lookup, `TaskNotFoundException` when
absent. -/
def findOne (st : SchedState) (dto : TaskWhereDto) : Except TasksErr DbTask :=
  match TasksRepository.findOne st.db dto.«where» with
  | none => .error (.taskNotFound dto.«where».id)
  | some task => .ok task

end TasksService

/-- The payload a fired task job delivers to the event controllers
(`TaskJobPayload`): the fields the schedules service put into the job. -/
structure TaskJobPayload where
  taskId : String
  taskName : String
  userId : String
deriving DecidableEq, Repr

/-- The identifying fields republished with a task event. -/
structure EventTaskFields where
  id : String
  userId : String
deriving DecidableEq, Repr

/-- The payload of a republished task event: exactly `{task: {id, userId}}`. -/
structure TaskEventPayload where
  task : EventTaskFields
deriving DecidableEq, Repr

/-- An event handed to `EventsService.publish`: topic name and payload. -/
structure PublishedEvent where
  eventName : String
  payload : TaskEventPayload
deriving DecidableEq, Repr

namespace TaskEventsController

/-- Modelled from the spec: `EventsService.publish` (the schedules service's
`events/events.service.ts` is not part of the sources) is fire-and-forget
topic publishing whose failures are logged and never thrown back into the
caller (§4.4 of the design).  Here it simply emits the event. -/
def publish (eventName : String) (payload : TaskEventPayload) : List PublishedEvent :=
  [{ eventName := eventName, payload := payload }]

/-- The body of `TaskEventsController.handleDue` (the code inside its `try`):
fetch the task by id, transition it to `FAILED` through
`TasksService.update` only when its status is `NOT_STARTED` or
`IN_PROGRESS`, then publish `TaskEvent.DUE` with `{task: {id, userId}}`.
The result carries the state left behind and either the published events or
the error that escaped the body. -/
def handleDueBody (st : SchedState) (now : Int) (p : TaskJobPayload) :
    SchedState × Except TasksErr (List PublishedEvent) :=
  match TasksService.findOne st { «where» := { id := p.taskId, userId := none } } with
  | .error e => (st, .error e)
  | .ok task =>
    let stepR : SchedState × Except TasksErr Unit :=
      if task.status == TaskStatus.NOT_STARTED || task.status == TaskStatus.IN_PROGRESS then
        match TasksService.update st now
          { «where» := { id := task.id, userId := some task.userId },
            fields := { TaskUpdateFields.empty with status := some .FAILED } } with
        | (st', .ok _) => (st', .ok ())
        | (st', .error e) => (st', .error e)
      else
        (st, .ok ())
    match stepR with
    | (st', .ok _) =>
      (st', .ok (publish TaskEvent.DUE { task := { id := task.id, userId := task.userId } }))
    | (st', .error e) => (st', .error e)

/-- `TaskEventsController.handleDue`: the body wrapped in the `try`/`catch`
that logs any error and returns normally.  The third component is the
logged error, `none` when the body succeeded; no error ever escapes to the
broker. -/
def handleDue (st : SchedState) (now : Int) (p : TaskJobPayload) :
    SchedState × List PublishedEvent × Option TasksErr :=
  match handleDueBody st now p with
  | (st', .ok evs) => (st', evs, none)
  | (st', .error e) => (st', [], some e)

/-- The body of `TaskEventsController.handleRepetition`: fetch the task,
set its status to `NOT_STARTED` unconditionally via `TasksService.update`,
then publish `TaskEvent.REPEATED` with `{task: {id, userId}}`. -/
def handleRepetitionBody (st : SchedState) (now : Int) (p : TaskJobPayload) :
    SchedState × Except TasksErr (List PublishedEvent) :=
  match TasksService.findOne st { «where» := { id := p.taskId, userId := none } } with
  | .error e => (st, .error e)
  | .ok task =>
    match TasksService.update st now
      { «where» := { id := task.id, userId := some task.userId },
        fields := { TaskUpdateFields.empty with status := some .NOT_STARTED } } with
    | (st', .ok _) =>
      (st', .ok (publish TaskEvent.REPEATED { task := { id := task.id, userId := task.userId } }))
    | (st', .error e) => (st', .error e)

/-- `TaskEventsController.handleRepetition`: the body wrapped in the
logging `try`/`catch`. -/
def handleRepetition (st : SchedState) (now : Int) (p : TaskJobPayload) :
    SchedState × List PublishedEvent × Option TasksErr :=
  match handleRepetitionBody st now p with
  | (st', .ok evs) => (st', evs, none)
  | (st', .error e) => (st', [], some e)

end TaskEventsController

/-- Number of Job Store bindings of a given type recorded for a task. -/
def bindingCount (db : DbState) (taskId : String) (ty : JobType) : Nat :=
  (db.jobs.filter (fun j => j.taskId == taskId && j.type == ty)).length

/-- The Job Store invariant: every task has at most one SINGLE and at most
one CRON binding. -/
def BindingInvariant (db : DbState) : Prop :=
  ∀ taskId : String, bindingCount db taskId .SINGLE ≤ 1 ∧ bindingCount db taskId .CRON ≤ 1

end Sched

/-- Decidable equality of `Except` results, used to evaluate concrete runs
of the fallible operations. -/
instance {ε α : Type} [DecidableEq ε] [DecidableEq α] : DecidableEq (Except ε α) := fun a b =>
  match a, b with
  | .ok x, .ok y =>
    if h : x = y then .isTrue (by rw [h]) else .isFalse (by intro hc; cases hc; exact h rfl)
  | .error x, .error y =>
    if h : x = y then .isTrue (by rw [h]) else .isFalse (by intro hc; cases hc; exact h rfl)
  | .ok _, .error _ => .isFalse (by intro hc; cases hc)
  | .error _, .ok _ => .isFalse (by intro hc; cases hc)

namespace Examples

open Sched JobsEngine

/-- A task with a due date and no recurrence, owned by user `u1` on
schedule `s1`. -/
def task1 : DbTask :=
  { id := "t1", name := "task one", description := none, status := .NOT_STARTED,
    dueTo := some 5000, «repeat» := none, userId := "u1", priority := 0,
    fixed := false, startTime := none, endTime := none, createdAt := 0,
    updatedAt := 0, scheduleId := "s1" }

/-- The engine-side job backing `task1`'s SINGLE binding. -/
def qjob0 : QJob :=
  { id := "uuid-0", name := BrokerTask.SCHEDULE_SINGLE_JOB,
    data := { payload := taskJobPayload "t1" "task one" "u1", ackEventName := TaskEvent.DUE },
    delay := 5000, timestamp := 0 }

/-- The Job Store record binding `qjob0` to `task1`. -/
def binding0 : DbJob := { id := "uuid-0", type := .SINGLE, taskId := "t1" }

/-- State with `task1` and its SINGLE binding in place. -/
def stSingle : SchedState :=
  { db := { schedules := ["s1"], tasks := [task1], jobs := [binding0] },
    engine := { queue := [qjob0], schedulers := [], nextId := 1 } }

/-- A patch that only clears `dueTo` (`fields.dueTo === null`). -/
def dtoDueToNull : TaskUpdateDto :=
  { «where» := { id := "t1", userId := some "u1" },
    fields := { TaskUpdateFields.empty with dueTo := .null } }

/-- A patch that only moves `dueTo` to a new future timestamp. -/
def dtoDueToSet : TaskUpdateDto :=
  { «where» := { id := "t1", userId := some "u1" },
    fields := { TaskUpdateFields.empty with dueTo := .set 9000 } }

/-- State with `task1` present but no Job Store records and an empty
engine. -/
def stNoJobs : SchedState :=
  { db := { schedules := ["s1"], tasks := [task1], jobs := [] },
    engine := { queue := [], schedulers := [], nextId := 0 } }

/-- A create request with both a due date and a recurrence rule. -/
def dtoCreateBoth : TaskCreateDto :=
  { name := "task two", userId := "u1", scheduleId := "s1", description := none,
    dueTo := some 7000, «repeat» := some "*/5 * * * * *", startTime := none,
    endTime := none, priority := 0, fixed := false, status := .NOT_STARTED }

/-- An empty engine. -/
def engEmpty : EngineState := { queue := [], schedulers := [], nextId := 0 }

/-- An engine holding exactly `qjob0`. -/
def engOne : EngineState := { queue := [qjob0], schedulers := [], nextId := 1 }

/-- A schedule-single request dated in the past relative to `now = 1000`. -/
def dtoPastSingle : JobScheduleSingleDto :=
  { name := BrokerTask.SCHEDULE_SINGLE_JOB, executionDate := 500,
    ackEventName := TaskEvent.DUE, payload := taskJobPayload "t1" "task one" "u1" }

/-- A schedule-cron request (every five seconds). -/
def dtoCron : JobScheduleCronDto :=
  { name := BrokerTask.SCHEDULE_CRON_JOB, cron := "*/5 * * * * *",
    ackEventName := TaskEvent.REPEATED, payload := taskJobPayload "t1" "task one" "u1" }

/-- `task1` with both a due date and a recurrence rule. -/
def taskBoth : DbTask := { task1 with «repeat» := some "*/5 * * * * *" }

/-- The CRON binding of `taskBoth`. -/
def binding1 : DbJob := { id := "uuid-1", type := .CRON, taskId := "t1" }

/-- The engine-side cron scheduler backing `binding1`. -/
def scheduler1 : JobScheduler :=
  { key := "uuid-1", pattern := "*/5 * * * * *", name := BrokerTask.SCHEDULE_CRON_JOB,
    data := { payload := taskJobPayload "t1" "task one" "u1", ackEventName := TaskEvent.REPEATED } }

/-- State where `taskBoth` has both a SINGLE and a CRON binding, both of
which are live in the engine. -/
def stBoth : SchedState :=
  { db := { schedules := ["s1"], tasks := [taskBoth], jobs := [binding0, binding1] },
    engine := { queue := [qjob0], schedulers := [scheduler1], nextId := 2 } }

/-- The `where` clause selecting `task1`. -/
def whereT1 : TaskWhereDto := { «where» := { id := "t1", userId := some "u1" } }

/-- The job payload delivered when a job of `task1` fires. -/
def payloadT1 : TaskJobPayload := { taskId := "t1", taskName := "task one", userId := "u1" }

/-- `stSingle` with the task already `FAILED`. -/
def stFailed : SchedState :=
  { stSingle with db := { stSingle.db with tasks := [{ task1 with status := .FAILED }] } }

/-- `stSingle` with the task `IN_PROGRESS`. -/
def stInProgress : SchedState :=
  { stSingle with db := { stSingle.db with tasks := [{ task1 with status := .IN_PROGRESS }] } }

/-- A state containing no tasks at all. -/
def stEmpty : SchedState :=
  { db := { schedules := ["s1"], tasks := [], jobs := [] }, engine := engEmpty }

end Examples

open Sched JobsEngine

/-- C1: the claim requires the tri-state `dueTo` patch to be preserved end
to end; in particular `fields.dueTo === null` must clear the row's `dueTo`
column to null and unschedule any existing SINGLE binding.  Evaluating the
embedded `TasksService.update` at exactly such a patch (`stSingle` holds a
task with `dueTo = 5000` and a live SINGLE binding): the call succeeds, the
binding is unscheduled from Job Store and engine, but the row's `dueTo`
column still holds its former value — the service collapses the explicit
null into `undefined` (`fields?.dueTo ? new Date(fields?.dueTo) :
undefined`) before the repository update, so the column is never cleared. -/
theorem c1_dueTo_null_leaves_row_dueTo_set :
    (TasksService.update Examples.stSingle 1000 Examples.dtoDueToNull).2.toOption =
      some { Examples.task1 with updatedAt := 1000 } ∧
    (TasksService.update Examples.stSingle 1000 Examples.dtoDueToNull).1.db.jobs = [] ∧
    (TasksService.update Examples.stSingle 1000 Examples.dtoDueToNull).1.engine.queue = [] ∧
    (TasksService.update Examples.stSingle 1000 Examples.dtoDueToNull).1.db.tasks.map
      (fun t => t.dueTo) = [some 5000] := by
  decide

/-- C4: the claim states that a `scheduleSingle` request whose
`executionDate` is in the past fails with an invalid-schedule error rather
than enqueuing a job.  Counterexample: at `now = 1000` a request dated 500
succeeds and enqueues a job with delay `-500` — the engine's
`scheduleSingle` performs no future-date check at all. -/
theorem c4_counterexample_past_date_is_enqueued :
    Examples.dtoPastSingle.executionDate < 1000 ∧
    (JobsEngine.scheduleSingle Examples.engEmpty 1000 Examples.dtoPastSingle).2.toOption.isSome = true ∧
    (JobsEngine.scheduleSingle Examples.engEmpty 1000 Examples.dtoPastSingle).1.queue.map
      (fun j => j.delay) = [-500] := by
  decide

/-- C4 (amended): `scheduleSingle` never rejects a request by date: for
every request whose `executionDate` is not in the future it still succeeds,
appending a job whose delay `executionDate - now` is non-positive (BullMQ
then fires it immediately), instead of raising an invalid-schedule error. -/
theorem c4_amended_schedule_single_accepts_past (st : EngineState) (now : Int)
    (dto : JobScheduleSingleDto) (h : dto.executionDate ≤ now) :
    ∃ j : QJob,
      JobsEngine.scheduleSingle st now dto =
        ({ st with queue := st.queue ++ [j], nextId := st.nextId + 1 },
         .ok { id := j.id, name := dto.name, executionDate := dto.executionDate,
               type := .SINGLE }) ∧
      j.delay = dto.executionDate - now ∧ j.delay ≤ 0 ∧ j.name = dto.name ∧
      j.data = { payload := dto.payload, ackEventName := dto.ackEventName } := by
  exact ⟨{ id := freshId st.nextId, name := dto.name,
           data := { payload := dto.payload, ackEventName := dto.ackEventName },
           delay := dto.executionDate - now, timestamp := now },
         rfl, rfl, show dto.executionDate - now ≤ 0 by omega, rfl, rfl⟩

/-- C4 (amended) witness: the amended claim evaluated at the concrete past
request of the counterexample. -/
theorem c4_amended_witness :
    ∃ j : QJob,
      JobsEngine.scheduleSingle Examples.engEmpty 1000 Examples.dtoPastSingle =
        ({ Examples.engEmpty with
            queue := Examples.engEmpty.queue ++ [j],
            nextId := Examples.engEmpty.nextId + 1 },
         .ok { id := j.id, name := Examples.dtoPastSingle.name,
               executionDate := Examples.dtoPastSingle.executionDate, type := .SINGLE }) ∧
      j.delay = Examples.dtoPastSingle.executionDate - 1000 ∧ j.delay ≤ 0 ∧
      j.name = Examples.dtoPastSingle.name ∧
      j.data = { payload := Examples.dtoPastSingle.payload,
                 ackEventName := Examples.dtoPastSingle.ackEventName } :=
  c4_amended_schedule_single_accepts_past Examples.engEmpty 1000 Examples.dtoPastSingle
    (by decide)

/-- C5: the claim states that `scheduleCron` upserts a recurring job under a
caller-supplied key, so a second call with the same key replaces the first
and at most one recurring job exists per key.  Counterexample: the request
DTO carries no key at all — `scheduleCron` draws a fresh scheduler id per
call — so two calls with the identical request yield two distinct recurring
jobs instead of one replaced job. -/
theorem c5_counterexample_two_calls_two_schedulers :
    ((JobsEngine.scheduleCron Examples.engEmpty Examples.dtoCron).2.toOption.map
        (fun j => j.id) ≠
      ((JobsEngine.scheduleCron
          (JobsEngine.scheduleCron Examples.engEmpty Examples.dtoCron).1
          Examples.dtoCron).2.toOption.map (fun j => j.id))) ∧
    (JobsEngine.scheduleCron (JobsEngine.scheduleCron Examples.engEmpty Examples.dtoCron).1
        Examples.dtoCron).1.schedulers.length = 2 := by
  decide

/-- C5 (amended): `scheduleCron` generates a fresh scheduler id on every
call (not caller-supplied) and upserts under that fresh id, so each call
creates a new recurring job; replacing the pattern of an existing recurring
job is only possible through `rescheduleCron`, which upserts under the
existing scheduler's key. -/
theorem c5_amended_fresh_key_per_call (st : EngineState) (dto : JobScheduleCronDto)
    (hfresh : ∀ s ∈ st.schedulers, s.key ≠ freshId st.nextId) :
    JobsEngine.scheduleCron st dto =
      ({ st with
          schedulers := st.schedulers ++
            [{ key := freshId st.nextId, pattern := dto.cron, name := dto.name,
               data := { payload := dto.payload, ackEventName := dto.ackEventName } }],
          nextId := st.nextId + 1 },
       .ok { id := freshId st.nextId, name := dto.name, cron := dto.cron, type := .CRON }) := by
  have h : st.schedulers.any (fun s => s.key == freshId st.nextId) = false := by
    simp only [List.any_eq_false]
    intro s hs
    simpa using hfresh s hs
  simp [JobsEngine.scheduleCron, JobsEngine.upsertJobScheduler, h]

/-- C5 (amended) witness: the amended claim evaluated at the empty engine. -/
theorem c5_amended_witness :
    JobsEngine.scheduleCron Examples.engEmpty Examples.dtoCron =
      ({ Examples.engEmpty with
          schedulers := Examples.engEmpty.schedulers ++
            [{ key := freshId Examples.engEmpty.nextId, pattern := Examples.dtoCron.cron,
               name := Examples.dtoCron.name,
               data := { payload := Examples.dtoCron.payload,
                         ackEventName := Examples.dtoCron.ackEventName } }],
          nextId := Examples.engEmpty.nextId + 1 },
       .ok { id := freshId Examples.engEmpty.nextId, name := Examples.dtoCron.name,
             cron := Examples.dtoCron.cron, type := .CRON }) :=
  c5_amended_fresh_key_per_call Examples.engEmpty Examples.dtoCron (by simp [Examples.engEmpty])

/-- C3: `rescheduleSingle` fails with a not-found error when no pending
single job has the requested id, fails with an invalid-schedule error when
the new execution date is not in the future, and otherwise replaces only
the delay of the same logical job — same job id, name and payload — while
leaving every other pending job untouched; on either failure the pending
job set is unchanged. -/
theorem c3_reschedule_single_spec (st : EngineState) (now : Int)
    (dto : JobRescheduleSingleDto) :
    (st.queue.find? (fun j => j.id == dto.id) = none →
      JobsEngine.rescheduleSingle st now dto = (st, .error (.notFound dto.id))) ∧
    (∀ job, st.queue.find? (fun j => j.id == dto.id) = some job →
      (dto.executionDate - now ≤ 0 →
        JobsEngine.rescheduleSingle st now dto = (st, .error (.invalidSchedule dto.id))) ∧
      (0 < dto.executionDate - now →
        ∃ q' : List QJob,
          JobsEngine.rescheduleSingle st now dto =
            ({ st with queue := q' },
             .ok { id := job.id, name := job.name,
                   executionDate := dto.executionDate, type := .SINGLE }) ∧
          q'.filter (fun j => j.id != dto.id) = st.queue.filter (fun j => j.id != dto.id) ∧
          ∃ j' ∈ q', j'.id = job.id ∧ j'.name = job.name ∧ j'.data = job.data ∧
            j'.delay = dto.executionDate - now)) := by
  constructor
  · intro h
    simp [JobsEngine.rescheduleSingle, h]
  · intro job h
    have hid : job.id = dto.id := by
      have hp := List.find?_some h
      simpa using hp
    constructor
    · intro hle
      simp [JobsEngine.rescheduleSingle, h, hle]
    · intro hgt
      have hne : ¬ (dto.executionDate - now ≤ 0) := by omega
      refine ⟨st.queue.filter (fun j => j.id != dto.id) ++
          [{ job with delay := dto.executionDate - now, timestamp := now }], ?_, ?_, ?_⟩
      · simp [JobsEngine.rescheduleSingle, h, hne]
      · rw [List.filter_append]
        simp [hid, List.filter_filter]
      · exact ⟨_, List.mem_append_right _ (List.mem_singleton_self _), hid ▸ rfl, rfl, rfl, rfl⟩

/-- C3 witness: the three cases of the reschedule specification evaluated
concretely — a missing job id, a non-future new date, and a successful move
of `qjob0` from fire time 5000 to 9000. -/
theorem c3_witness :
    (JobsEngine.rescheduleSingle Examples.engEmpty 1000
        { id := "uuid-0", executionDate := 9000 } =
      (Examples.engEmpty, .error (.notFound "uuid-0"))) ∧
    (JobsEngine.rescheduleSingle Examples.engOne 1000
        { id := "uuid-0", executionDate := 500 } =
      (Examples.engOne, .error (.invalidSchedule "uuid-0"))) ∧
    (∃ q' : List QJob,
      JobsEngine.rescheduleSingle Examples.engOne 1000
          { id := "uuid-0", executionDate := 9000 } =
        ({ Examples.engOne with queue := q' },
         .ok { id := Examples.qjob0.id, name := Examples.qjob0.name,
               executionDate := 9000, type := .SINGLE }) ∧
      q'.filter (fun j => j.id != "uuid-0") =
        Examples.engOne.queue.filter (fun j => j.id != "uuid-0") ∧
      ∃ j' ∈ q', j'.id = Examples.qjob0.id ∧ j'.name = Examples.qjob0.name ∧
        j'.data = Examples.qjob0.data ∧ j'.delay = 9000 - 1000) :=
  ⟨(c3_reschedule_single_spec Examples.engEmpty 1000 _).1 (by decide),
   ((c3_reschedule_single_spec Examples.engOne 1000 _).2 Examples.qjob0 (by decide)).1 (by decide),
   ((c3_reschedule_single_spec Examples.engOne 1000 _).2 Examples.qjob0 (by decide)).2 (by decide)⟩

/-- A lifted step keeps the state of the underlying facade call. -/
theorem step_fst {α : Type} (r : SchedState × Except JobError α) :
    (TasksService.step r).1 = r.1 := by
  rcases r with ⟨s, e⟩
  cases e <;> rfl

/-- Sequencing with a skipping continuation changes nothing. -/
theorem andThen_skip (r : SchedState × Except TasksErr Unit) :
    TasksService.andThen r (fun s => (s, .ok ())) = r := by
  rcases r with ⟨s, e⟩
  cases e with
  | ok u => cases u; rfl
  | error e => rfl

/-- The facade's `rescheduleSingle` never touches the schedules database
(neither the Job Store nor the tasks table). -/
theorem rescheduleSingle_db (st : SchedState) (now : Int)
    (req : JobRescheduleSingleDto) :
    (JobsService.rescheduleSingle st now req).1.db = st.db := by
  rcases h : JobsEngine.rescheduleSingle st.engine now req with ⟨eng, r⟩
  simp [JobsService.rescheduleSingle, h]

/-- The facade's `rescheduleCron` never touches the schedules database. -/
theorem rescheduleCron_db (st : SchedState) (req : JobRescheduleCronDto) :
    (JobsService.rescheduleCron st req).1.db = st.db := by
  rcases h : JobsEngine.rescheduleCron st.engine req with ⟨eng, r⟩
  simp [JobsService.rescheduleCron, h]

/-- When the patch sets `dueTo`, leaves `repeat` unset and a SINGLE binding
already exists, the whole reconciliation is a database no-op: the SINGLE
branch takes the reschedule path (engine only) and the other branches do
not run. -/
theorem reconcileJobs_db_frame {st1 : SchedState} {now : Int} {id : String}
    {t : DbTask} {fields : TaskUpdateFields} {v : Int} {stF : SchedState}
    {e : Except TasksErr Unit}
    (hdue : fields.dueTo = .set v) (hrep : fields.«repeat» = .unset)
    (heq : TasksService.reconcileJobs st1 now id t fields = (stF, e))
    (hex : ∃ b ∈ st1.db.jobs, b.taskId = id ∧ b.type = JobType.SINGLE) :
    stF.db = st1.db := by
  have hgoal : (TasksService.reconcileJobs st1 now id t fields).1.db = st1.db := ?_
  · rw [heq] at hgoal
    exact hgoal
  have hjob : ∃ job, ((JobsService.findByTaskId st1 id).find?
      (fun j => j.type == JobType.SINGLE)) = some job := by
    rcases hex with ⟨b, hb, hbid, hbty⟩
    have hmem : b ∈ JobsService.findByTaskId st1 id := by
      simp only [JobsService.findByTaskId, JobsRepository.findByTaskId]
      exact List.mem_filter.mpr ⟨hb, by simp [hbid]⟩
    have hsome : (((JobsService.findByTaskId st1 id)).find?
        (fun j => j.type == JobType.SINGLE)).isSome :=
      List.find?_isSome.mpr ⟨b, hmem, by simp [hbty]⟩
    exact Option.isSome_iff_exists.mp hsome
  obtain ⟨job, hjob⟩ := hjob
  simp only [TasksService.reconcileJobs, hdue, hrep, TasksService.updateDueToSet, hjob,
    andThen_skip]
  rw [step_fst, rescheduleSingle_db]

/-- C6: the Job Service facade's reschedule operations are pure engine
passthroughs — they neither save nor remove Job Store records (the whole
schedules database is untouched) — and consequently an update that moves a
task's `dueTo` while a SINGLE binding exists leaves the Job Store rows,
and hence the binding's `jobId`, exactly as they were. -/
theorem c6_reschedule_store_frame (st : SchedState) (now : Int) :
    (∀ req : JobRescheduleSingleDto,
      (JobsService.rescheduleSingle st now req).1.db = st.db) ∧
    (∀ req : JobRescheduleCronDto,
      (JobsService.rescheduleCron st req).1.db = st.db) ∧
    (∀ (dto : TaskUpdateDto) (v : Int),
      dto.fields.dueTo = .set v → dto.fields.«repeat» = .unset →
      dto.fields.scheduleId = none →
      (∃ b ∈ st.db.jobs, b.taskId = dto.«where».id ∧ b.type = JobType.SINGLE) →
      (TasksService.update st now dto).1.db.jobs = st.db.jobs) := by
  refine ⟨fun req => rescheduleSingle_db st now req,
          fun req => rescheduleCron_db st req, ?_⟩
  intro dto v hdue hrep hsched hex
  cases hopt : (st.db.tasks.filter (matchesWhere dto.«where»)).head? with
  | none =>
    simp [TasksService.update, hsched, TasksRepository.update, hopt]
  | some r =>
    simp only [TasksService.update, hsched, TasksRepository.update, hopt, hdue, hrep,
      Option.map_some', Bool.not_true, Bool.false_eq_true, if_false]
    split
    · next stF a heq =>
        have h := reconcileJobs_db_frame hdue hrep heq hex
        have h2 := congrArg DbState.jobs h
        exact h2
    · next stF e2 heq =>
        have h := reconcileJobs_db_frame hdue hrep heq hex
        have h2 := congrArg DbState.jobs h
        exact h2

/-- C6 witness: moving `dueTo` from 5000 to 9000 while the SINGLE binding
`uuid-0` exists leaves the Job Store rows unchanged. -/
theorem c6_witness :
    ((JobsService.rescheduleSingle Examples.stSingle 1000
        { id := "uuid-0", executionDate := 9000 }).1.db = Examples.stSingle.db) ∧
    ((JobsService.rescheduleCron Examples.stSingle
        { id := "uuid-1", cron := "*/5 * * * * *" }).1.db = Examples.stSingle.db) ∧
    ((TasksService.update Examples.stSingle 1000 Examples.dtoDueToSet).1.db.jobs =
      Examples.stSingle.db.jobs) :=
  ⟨(c6_reschedule_store_frame Examples.stSingle 1000).1 _,
   (c6_reschedule_store_frame Examples.stSingle 1000).2.1 _,
   (c6_reschedule_store_frame Examples.stSingle 1000).2.2 Examples.dtoDueToSet 9000
     rfl rfl rfl ⟨Examples.binding0, by decide⟩⟩

/-- Saving a binding row increments exactly the `(taskId, type)` count it
belongs to. -/
theorem bindingCount_save (db : DbState) (jid : String) (ty : JobType)
    (tid tid' : String) (ty' : JobType) :
    bindingCount (JobsRepository.save db jid ty tid) tid' ty' =
      bindingCount db tid' ty' + (if tid = tid' ∧ ty = ty' then 1 else 0) := by
  simp only [bindingCount, JobsRepository.save, List.filter_append, List.length_append]
  congr 1
  by_cases h1 : tid = tid'
  · by_cases h2 : ty = ty'
    · simp [List.filter, h1, h2]
    · have hb : (ty == ty') = false := beq_eq_false_iff_ne.mpr h2
      simp [List.filter, h1, h2, hb]
  · have hb : (tid == tid') = false := beq_eq_false_iff_ne.mpr h1
    simp [List.filter, hb, h1]

/-- Removing a binding row never increases any count. -/
theorem bindingCount_remove_le (db : DbState) (jid tid : String) (ty : JobType) :
    bindingCount (JobsRepository.remove db jid) tid ty ≤ bindingCount db tid ty := by
  simp only [bindingCount, JobsRepository.remove]
  exact List.Sublist.length_le (List.Sublist.filter _ (List.filter_sublist _))

/-- If the `findByTaskId` snapshot holds no binding of a type, the count of
that type for the task is zero. -/
theorem snapshot_none_count_zero (db : DbState) (id : String) (ty : JobType)
    (h : (JobsRepository.findByTaskId db id).find? (fun j => j.type == ty) = none) :
    bindingCount db id ty = 0 := by
  simp only [bindingCount, List.length_eq_zero, List.filter_eq_nil_iff]
  intro j hj hp
  rw [Bool.and_eq_true] at hp
  have hmem : j ∈ JobsRepository.findByTaskId db id :=
    List.mem_filter.mpr ⟨hj, hp.1⟩
  have hnot := List.find?_eq_none.mp h j hmem
  exact hnot hp.2

/-- The facade's `scheduleSingle` records exactly one new SINGLE binding. -/
theorem scheduleSingle_db (st : SchedState) (now : Int) (req : JobScheduleSingleDto)
    (taskId : String) :
    (JobsService.scheduleSingle st now req taskId).1.db =
      JobsRepository.save st.db (freshId st.engine.nextId) .SINGLE taskId := rfl

/-- The facade's `scheduleCron` records exactly one new CRON binding. -/
theorem scheduleCron_db (st : SchedState) (req : JobScheduleCronDto)
    (taskId : String) :
    (JobsService.scheduleCron st req taskId).1.db =
      JobsRepository.save st.db (freshId st.engine.nextId) .CRON taskId := rfl

/-- The facade's `unscheduleSingle` either fails without touching the
database or removes one binding row. -/
theorem unscheduleSingle_db (st : SchedState) (req : JobUnscheduleSingleDto) :
    (JobsService.unscheduleSingle st req).1.db = st.db ∨
    ∃ jid, (JobsService.unscheduleSingle st req).1.db =
      JobsRepository.remove st.db jid := by
  cases h : st.engine.queue.find? (fun j => j.id == req.id) with
  | none =>
    left
    simp [JobsService.unscheduleSingle, JobsEngine.unscheduleSingle, h]
  | some job =>
    right
    exact ⟨job.id, by simp [JobsService.unscheduleSingle, JobsEngine.unscheduleSingle, h]⟩

/-- The facade's `unscheduleCron` either fails without touching the
database or removes one binding row. -/
theorem unscheduleCron_db (st : SchedState) (req : JobUnscheduleCronDto) :
    (JobsService.unscheduleCron st req).1.db = st.db ∨
    ∃ jid, (JobsService.unscheduleCron st req).1.db =
      JobsRepository.remove st.db jid := by
  cases h : st.engine.schedulers.find? (fun s => s.key == req.id) with
  | none =>
    left
    simp [JobsService.unscheduleCron, JobsEngine.unscheduleCron, h]
  | some s =>
    right
    exact ⟨s.key, by simp [JobsService.unscheduleCron, JobsEngine.unscheduleCron, h]⟩

/-- The `dueTo`-set branch keeps every SINGLE count at most one (it only
schedules anew when the snapshot shows no SINGLE binding) and never
increases a CRON count. -/
theorem updateDueToSet_counts (s : SchedState) (now : Int) (id : String) (t : DbTask)
    (v : Int) (jobs : List DbJob)
    (hzero : jobs.find? (fun j => j.type == JobType.SINGLE) = none →
      bindingCount s.db id .SINGLE = 0) :
    (∀ tid, bindingCount s.db tid .SINGLE ≤ 1 →
      bindingCount (TasksService.updateDueToSet s now id t v jobs).1.db tid .SINGLE ≤ 1) ∧
    (∀ tid, bindingCount (TasksService.updateDueToSet s now id t v jobs).1.db tid .CRON ≤
      bindingCount s.db tid .CRON) := by
  cases hf : jobs.find? (fun j => j.type == JobType.SINGLE) with
  | none =>
    have hdb : (TasksService.updateDueToSet s now id t v jobs).1.db =
        JobsRepository.save s.db (freshId s.engine.nextId) .SINGLE id := by
      simp only [TasksService.updateDueToSet, hf]
      rw [step_fst]
      rfl
    constructor
    · intro tid hle
      rw [hdb, bindingCount_save]
      by_cases hid : id = tid
      · subst hid
        rw [hzero hf]
        simp
      · simp only [hid, false_and, if_false]
        simpa using hle
    · intro tid
      rw [hdb, bindingCount_save]
      simp
  | some job =>
    have hdb : (TasksService.updateDueToSet s now id t v jobs).1.db = s.db := by
      simp only [TasksService.updateDueToSet, hf]
      rw [step_fst, rescheduleSingle_db]
    exact ⟨fun tid hle => by rw [hdb]; exact hle, fun tid => by rw [hdb]⟩

/-- The `dueTo`-null branch only removes bindings, so no count grows. -/
theorem updateDueToNull_counts (s : SchedState) (jobs : List DbJob) :
    ∀ tid ty, bindingCount (TasksService.updateDueToNull s jobs).1.db tid ty ≤
      bindingCount s.db tid ty := by
  intro tid ty
  cases hf : jobs.find? (fun j => j.type == JobType.SINGLE) with
  | none => simp [TasksService.updateDueToNull, hf]
  | some job =>
    simp only [TasksService.updateDueToNull, hf]
    rw [step_fst]
    rcases unscheduleSingle_db s { id := job.id } with h | ⟨jid, h⟩
    · rw [h]
    · rw [h]
      exact bindingCount_remove_le s.db jid tid ty

/-- The `repeat`-set branch keeps every CRON count at most one and never
increases a SINGLE count. -/
theorem updateRepeatSet_counts (s : SchedState) (id : String) (t : DbTask)
    (v : String) (jobs : List DbJob)
    (hzero : jobs.find? (fun j => j.type == JobType.CRON) = none →
      bindingCount s.db id .CRON = 0) :
    (∀ tid, bindingCount s.db tid .CRON ≤ 1 →
      bindingCount (TasksService.updateRepeatSet s id t v jobs).1.db tid .CRON ≤ 1) ∧
    (∀ tid, bindingCount (TasksService.updateRepeatSet s id t v jobs).1.db tid .SINGLE ≤
      bindingCount s.db tid .SINGLE) := by
  cases hf : jobs.find? (fun j => j.type == JobType.CRON) with
  | none =>
    have hdb : (TasksService.updateRepeatSet s id t v jobs).1.db =
        JobsRepository.save s.db (freshId s.engine.nextId) .CRON id := by
      simp only [TasksService.updateRepeatSet, hf]
      rw [step_fst]
      rfl
    constructor
    · intro tid hle
      rw [hdb, bindingCount_save]
      by_cases hid : id = tid
      · subst hid
        rw [hzero hf]
        simp
      · simp only [hid, false_and, if_false]
        simpa using hle
    · intro tid
      rw [hdb, bindingCount_save]
      simp
  | some job =>
    have hdb : (TasksService.updateRepeatSet s id t v jobs).1.db = s.db := by
      simp only [TasksService.updateRepeatSet, hf]
      rw [step_fst, rescheduleCron_db]
    exact ⟨fun tid hle => by rw [hdb]; exact hle, fun tid => by rw [hdb]⟩

/-- The `repeat`-null branch only removes bindings, so no count grows. -/
theorem updateRepeatNull_counts (s : SchedState) (jobs : List DbJob) :
    ∀ tid ty, bindingCount (TasksService.updateRepeatNull s jobs).1.db tid ty ≤
      bindingCount s.db tid ty := by
  intro tid ty
  cases hf : jobs.find? (fun j => j.type == JobType.CRON) with
  | none => simp [TasksService.updateRepeatNull, hf]
  | some job =>
    simp only [TasksService.updateRepeatNull, hf]
    rw [step_fst]
    rcases unscheduleCron_db s { id := job.id } with h | ⟨jid, h⟩
    · rw [h]
    · rw [h]
      exact bindingCount_remove_le s.db jid tid ty

/-- Pointwise dominated binding counts transport the invariant. -/
theorem invariant_of_le (db db' : DbState)
    (h : ∀ tid ty, bindingCount db' tid ty ≤ bindingCount db tid ty)
    (hInv : BindingInvariant db) : BindingInvariant db' :=
  fun tid => ⟨le_trans (h tid .SINGLE) (hInv tid).1, le_trans (h tid .CRON) (hInv tid).2⟩

/-- A task id referenced by no binding row has count zero for both types. -/
theorem bindingCount_zero_of_fresh (db : DbState) (id : String) (ty : JobType)
    (h : ∀ j ∈ db.jobs, j.taskId ≠ id) : bindingCount db id ty = 0 := by
  simp only [bindingCount, List.length_eq_zero, List.filter_eq_nil_iff]
  intro j hj hp
  rw [Bool.and_eq_true] at hp
  exact h j hj (by simpa using hp.1)

/-- A lifted `unscheduleSingle` never increases a binding count. -/
theorem step_unscheduleSingle_le (st : SchedState) (req : JobUnscheduleSingleDto) :
    ∀ tid ty, bindingCount
      (TasksService.step (JobsService.unscheduleSingle st req)).1.db tid ty ≤
      bindingCount st.db tid ty := by
  intro tid ty
  rw [step_fst]
  rcases unscheduleSingle_db st req with h | ⟨jid, h⟩ <;> rw [h]
  exact bindingCount_remove_le st.db jid tid ty

/-- A lifted `unscheduleCron` never increases a binding count. -/
theorem step_unscheduleCron_le (st : SchedState) (req : JobUnscheduleCronDto) :
    ∀ tid ty, bindingCount
      (TasksService.step (JobsService.unscheduleCron st req)).1.db tid ty ≤
      bindingCount st.db tid ty := by
  intro tid ty
  rw [step_fst]
  rcases unscheduleCron_db st req with h | ⟨jid, h⟩ <;> rw [h]
  exact bindingCount_remove_le st.db jid tid ty

/-- The due-unschedule phase of `remove` never increases a binding count. -/
theorem unscheduleDue_le (st : SchedState) (task : DbTask) (jobs : List DbJob) :
    ∀ tid ty, bindingCount (TasksService.unscheduleDue st task jobs).1.db tid ty ≤
      bindingCount st.db tid ty := by
  intro tid ty
  simp only [TasksService.unscheduleDue]
  cases task.dueTo with
  | none => exact le_refl _
  | some d =>
    cases jobs.find? (fun j => j.type == JobType.SINGLE) with
    | none => exact le_refl _
    | some job => exact step_unscheduleSingle_le st _ tid ty

/-- The repeat-unschedule phase of `remove` never increases a binding
count. -/
theorem unscheduleRepeat_le (st : SchedState) (task : DbTask) (jobs : List DbJob) :
    ∀ tid ty, bindingCount (TasksService.unscheduleRepeat st task jobs).1.db tid ty ≤
      bindingCount st.db tid ty := by
  intro tid ty
  simp only [TasksService.unscheduleRepeat]
  cases task.«repeat» with
  | none => exact le_refl _
  | some c =>
    cases jobs.find? (fun j => j.type == JobType.CRON) with
    | none => exact le_refl _
    | some job => exact step_unscheduleCron_le st _ tid ty

/-- The repeat half of the reconciliation pipeline preserves the invariant,
given the bounds established by the due half. -/
theorem repeatTail_inv (st1 : SchedState) (id : String) (t : DbTask)
    (fields : TaskUpdateFields) (r : SchedState × Except TasksErr Unit)
    (hS : ∀ tid, bindingCount r.1.db tid .SINGLE ≤ 1)
    (hC : ∀ tid, bindingCount r.1.db tid .CRON ≤ bindingCount st1.db tid .CRON)
    (hInv : BindingInvariant st1.db)
    (hzeroC : (JobsService.findByTaskId st1 id).find?
        (fun j => j.type == JobType.CRON) = none →
      bindingCount st1.db id .CRON = 0) :
    BindingInvariant
      (TasksService.andThen
        (TasksService.andThen r (fun s =>
          match fields.«repeat» with
          | .set v => TasksService.updateRepeatSet s id t v (JobsService.findByTaskId st1 id)
          | _ => (s, Except.ok ())))
        (fun s =>
          match fields.«repeat» with
          | .null => TasksService.updateRepeatNull s (JobsService.findByTaskId st1 id)
          | _ => (s, Except.ok ()))).1.db := by
  rcases r with ⟨s2, e2⟩
  cases e2 with
  | error e =>
    intro tid
    exact ⟨hS tid, le_trans (hC tid) (hInv tid).2⟩
  | ok u =>
    cases u
    rcases hr : fields.«repeat» with _ | _ | v
    · simp only [hr, TasksService.andThen]
      intro tid
      exact ⟨hS tid, le_trans (hC tid) (hInv tid).2⟩
    · simp only [hr, TasksService.andThen]
      intro tid
      refine ⟨le_trans (updateRepeatNull_counts s2 _ tid .SINGLE) (hS tid), ?_⟩
      exact le_trans (le_trans (updateRepeatNull_counts s2 _ tid .CRON) (hC tid))
        (hInv tid).2
    · simp only [hr]
      rw [andThen_skip]
      simp only [TasksService.andThen]
      have hzero2 : (JobsService.findByTaskId st1 id).find?
          (fun j => j.type == JobType.CRON) = none →
          bindingCount s2.db id .CRON = 0 := fun h =>
        Nat.le_zero.mp (le_trans (hC id) (le_of_eq (hzeroC h)))
      have hcounts := updateRepeatSet_counts s2 id t v
        (JobsService.findByTaskId st1 id) hzero2
      intro tid
      refine ⟨le_trans (hcounts.2 tid) (hS tid), ?_⟩
      exact hcounts.1 tid (le_trans (hC tid) (hInv tid).2)

/-- The whole reconciliation pipeline of `update` preserves the Job Store
invariant. -/
theorem reconcileJobs_inv {st1 : SchedState} {now : Int} {id : String} {t : DbTask}
    {fields : TaskUpdateFields} {stF : SchedState} {e : Except TasksErr Unit}
    (heq : TasksService.reconcileJobs st1 now id t fields = (stF, e))
    (hInv : BindingInvariant st1.db) :
    BindingInvariant stF.db := by
  have hzeroS : (JobsService.findByTaskId st1 id).find?
      (fun j => j.type == JobType.SINGLE) = none →
      bindingCount st1.db id .SINGLE = 0 :=
    fun h => snapshot_none_count_zero st1.db id .SINGLE h
  have hzeroC : (JobsService.findByTaskId st1 id).find?
      (fun j => j.type == JobType.CRON) = none →
      bindingCount st1.db id .CRON = 0 :=
    fun h => snapshot_none_count_zero st1.db id .CRON h
  have hdue : ∀ tid,
      bindingCount (TasksService.andThen
        (match fields.dueTo with
         | .set v => TasksService.updateDueToSet st1 now id t v
             (JobsService.findByTaskId st1 id)
         | _ => (st1, Except.ok ()))
        (fun s =>
          match fields.dueTo with
          | .null => TasksService.updateDueToNull s (JobsService.findByTaskId st1 id)
          | _ => (s, Except.ok ()))).1.db tid .SINGLE ≤ 1 ∧
      bindingCount (TasksService.andThen
        (match fields.dueTo with
         | .set v => TasksService.updateDueToSet st1 now id t v
             (JobsService.findByTaskId st1 id)
         | _ => (st1, Except.ok ()))
        (fun s =>
          match fields.dueTo with
          | .null => TasksService.updateDueToNull s (JobsService.findByTaskId st1 id)
          | _ => (s, Except.ok ()))).1.db tid .CRON ≤
        bindingCount st1.db tid .CRON := by
    rcases hd : fields.dueTo with _ | _ | v
    · simp only [hd, TasksService.andThen]
      intro tid
      exact ⟨(hInv tid).1, le_refl _⟩
    · simp only [hd, TasksService.andThen]
      intro tid
      exact ⟨le_trans (updateDueToNull_counts st1 _ tid .SINGLE) (hInv tid).1,
             updateDueToNull_counts st1 _ tid .CRON⟩
    · simp only [hd]
      rw [andThen_skip]
      have hcounts := updateDueToSet_counts st1 now id t v
        (JobsService.findByTaskId st1 id) hzeroS
      intro tid
      exact ⟨hcounts.1 tid (hInv tid).1, hcounts.2 tid⟩
  have hmain : BindingInvariant (TasksService.reconcileJobs st1 now id t fields).1.db := by
    simp only [TasksService.reconcileJobs]
    exact repeatTail_inv st1 id t fields _ (fun tid => (hdue tid).1)
      (fun tid => (hdue tid).2) hInv hzeroC
  rw [heq] at hmain
  exact hmain

/-- `createJobs` adds at most one binding per type, and only for the new
task's id. -/
theorem createJobs_counts {st1 : SchedState} {now : Int} {dbTask : DbTask}
    {stF : SchedState} {e : Except TasksErr Unit}
    (heq : TasksService.createJobs st1 now dbTask = (stF, e)) :
    ∀ tid ty, bindingCount stF.db tid ty ≤
      bindingCount st1.db tid ty + (if dbTask.id = tid then 1 else 0) := by
  have hmain : ∀ tid ty, bindingCount (TasksService.createJobs st1 now dbTask).1.db tid ty ≤
      bindingCount st1.db tid ty + (if dbTask.id = tid then 1 else 0) := by
    intro tid ty
    cases hd2 : dbTask.dueTo with
    | none =>
      cases hr2 : dbTask.«repeat» with
      | none =>
        simp only [TasksService.createJobs, hd2, hr2, TasksService.andThen]
        simp
      | some c =>
        simp only [TasksService.createJobs, hd2, hr2, TasksService.andThen,
          TasksService.step, JobsService.scheduleCron, JobsEngine.scheduleCron]
        rw [bindingCount_save]
        by_cases hid : dbTask.id = tid
        · cases ty <;> simp [hid]
        · simp [hid]
    | some d =>
      cases hr2 : dbTask.«repeat» with
      | none =>
        simp only [TasksService.createJobs, hd2, hr2, TasksService.andThen,
          TasksService.step, JobsService.scheduleSingle, JobsEngine.scheduleSingle]
        rw [bindingCount_save]
        by_cases hid : dbTask.id = tid
        · cases ty <;> simp [hid]
        · simp [hid]
      | some c =>
        simp only [TasksService.createJobs, hd2, hr2, TasksService.andThen,
          TasksService.step, JobsService.scheduleSingle, JobsEngine.scheduleSingle,
          JobsService.scheduleCron, JobsEngine.scheduleCron]
        rw [bindingCount_save, bindingCount_save]
        by_cases hid : dbTask.id = tid
        · cases ty <;> simp [hid]
        · simp [hid]
  intro tid ty
  have h := hmain tid ty
  rw [heq] at h
  exact h

/-- C2: starting from any state satisfying the Job Store invariant (at most
one SINGLE and at most one CRON binding per task), each Task Lifecycle
operation — `create` on a freshly inserted task id, `update` (which
schedules a new job of a type only when `findByTaskId` shows no binding of
that type, and otherwise reschedules the existing one), and `remove` —
leaves a state that still satisfies the invariant, including the states
left behind by failed calls; hence every operation sequence preserves it. -/
theorem c2_binding_invariant (st : SchedState) (now : Int)
    (hInv : BindingInvariant st.db) :
    (∀ (newTaskId : String) (dto : TaskCreateDto),
      (∀ j ∈ st.db.jobs, j.taskId ≠ newTaskId) →
      BindingInvariant (TasksService.create st now newTaskId dto).1.db) ∧
    (∀ dto : TaskUpdateDto,
      BindingInvariant (TasksService.update st now dto).1.db) ∧
    (∀ dto : TaskWhereDto,
      BindingInvariant (TasksService.remove st dto).1.db) := by
  refine ⟨?_, ?_, ?_⟩
  · intro newId dto hfresh
    cases hc : st.db.schedules.contains dto.scheduleId with
    | false =>
      simp only [TasksService.create, hc, Bool.not_false, if_true]
      exact hInv
    | true =>
      simp only [TasksService.create, hc, Bool.not_true, Bool.false_eq_true, if_false]
      split
      · next stF a heq =>
        have hle := createJobs_counts heq
        intro tid
        have hS := hle tid .SINGLE
        have hC := hle tid .CRON
        have hI := hInv tid
        by_cases hid : newId = tid
        · subst hid
          have h0S := bindingCount_zero_of_fresh st.db newId .SINGLE hfresh
          have h0C := bindingCount_zero_of_fresh st.db newId .CRON hfresh
          simp only [bindingCount] at hS hC h0S h0C ⊢
          simp only [eq_self_iff_true, if_true] at hS hC
          constructor <;> omega
        · simp only [bindingCount] at hS hC hI ⊢
          simp only [hid, if_false] at hS hC
          constructor <;> omega
      · next stF e2 heq =>
        have hle := createJobs_counts heq
        intro tid
        have hS := hle tid .SINGLE
        have hC := hle tid .CRON
        have hI := hInv tid
        by_cases hid : newId = tid
        · subst hid
          have h0S := bindingCount_zero_of_fresh st.db newId .SINGLE hfresh
          have h0C := bindingCount_zero_of_fresh st.db newId .CRON hfresh
          simp only [bindingCount] at hS hC h0S h0C ⊢
          simp only [eq_self_iff_true, if_true] at hS hC
          constructor <;> omega
        · simp only [bindingCount] at hS hC hI ⊢
          simp only [hid, if_false] at hS hC
          constructor <;> omega
  · intro dto
    cases hs : dto.fields.scheduleId with
    | none =>
      simp only [TasksService.update, hs]
      cases hopt : (st.db.tasks.filter (matchesWhere dto.«where»)).head? with
      | none =>
        simp only [TasksRepository.update, hopt, Option.map_none', Bool.not_true,
          Bool.false_eq_true, if_false]
        exact hInv
      | some r =>
        simp only [TasksRepository.update, hopt, Option.map_some', Bool.not_true,
          Bool.false_eq_true, if_false]
        split
        · next stF a heq =>
          exact reconcileJobs_inv heq hInv
        · next stF e2 heq =>
          exact reconcileJobs_inv heq hInv
    | some sid =>
      cases hc : st.db.schedules.contains sid with
      | false =>
        simp only [TasksService.update, hs, hc, Bool.not_false, if_true]
        exact hInv
      | true =>
        simp only [TasksService.update, hs, hc]
        cases hopt : (st.db.tasks.filter (matchesWhere dto.«where»)).head? with
        | none =>
          simp only [TasksRepository.update, hopt, Option.map_none', Bool.not_true,
            Bool.false_eq_true, if_false]
          exact hInv
        | some r =>
          simp only [TasksRepository.update, hopt, Option.map_some', Bool.not_true,
            Bool.false_eq_true, if_false]
          split
          · next stF a heq =>
            exact reconcileJobs_inv heq hInv
          · next stF e2 heq =>
            exact reconcileJobs_inv heq hInv
  · intro dto
    cases hf : TasksRepository.findOne st.db dto.«where» with
    | none =>
      simp only [TasksService.remove, hf]
      exact hInv
    | some task =>
      simp only [TasksService.remove, hf]
      rcases hr1 : TasksService.unscheduleDue st task
          (JobsService.findByTaskId st dto.«where».id) with ⟨s1, e1⟩
      have h1 : ∀ tid ty, bindingCount s1.db tid ty ≤ bindingCount st.db tid ty := by
        intro tid ty
        have h := unscheduleDue_le st task (JobsService.findByTaskId st dto.«where».id) tid ty
        rw [hr1] at h
        exact h
      cases e1 with
      | error e1 =>
        simp only [TasksService.andThen]
        exact invariant_of_le st.db s1.db h1 hInv
      | ok u1 =>
        cases u1
        simp only [TasksService.andThen]
        rcases hr2 : TasksService.unscheduleRepeat s1 task
            (JobsService.findByTaskId st dto.«where».id) with ⟨s2, e2⟩
        have h2 : ∀ tid ty, bindingCount s2.db tid ty ≤ bindingCount s1.db tid ty := by
          intro tid ty
          have h := unscheduleRepeat_le s1 task (JobsService.findByTaskId st dto.«where».id) tid ty
          rw [hr2] at h
          exact h
        have hInv2 : BindingInvariant s2.db :=
          invariant_of_le st.db s2.db
            (fun tid ty => le_trans (h2 tid ty) (h1 tid ty)) hInv
        cases e2 with
        | error e2 => exact hInv2
        | ok u2 => exact hInv2

/-- C2 witness: the three operations evaluated from a concrete invariant
state — a create that schedules both a SINGLE and a CRON job for a fresh
task id, an update that schedules a SINGLE job because no binding exists,
and a remove. -/
theorem c2_witness :
    BindingInvariant (TasksService.create Examples.stNoJobs 0 "t9"
      Examples.dtoCreateBoth).1.db ∧
    BindingInvariant (TasksService.update Examples.stNoJobs 0
      Examples.dtoDueToSet).1.db ∧
    BindingInvariant (TasksService.remove Examples.stNoJobs
      Examples.whereT1).1.db :=
  ⟨(c2_binding_invariant Examples.stNoJobs 0
      (fun tid => by simp [bindingCount, Examples.stNoJobs])).1 "t9"
      Examples.dtoCreateBoth (by simp [Examples.stNoJobs]),
   (c2_binding_invariant Examples.stNoJobs 0
      (fun tid => by simp [bindingCount, Examples.stNoJobs])).2.1 Examples.dtoDueToSet,
   (c2_binding_invariant Examples.stNoJobs 0
      (fun tid => by simp [bindingCount, Examples.stNoJobs])).2.2 Examples.whereT1⟩

/-- Two successive filters commute. -/
theorem filter_comm' {α : Type} (p q : α → Bool) (l : List α) :
    (l.filter p).filter q = (l.filter q).filter p := by
  rw [List.filter_filter, List.filter_filter]
  exact List.filter_congr (fun x _ => Bool.and_comm _ _)

/-- Searching for `p` among the elements kept by `!p` finds nothing. -/
theorem find?_filter_not {α : Type} (p : α → Bool) (l : List α) :
    (l.filter (fun a => !p a)).find? p = none := by
  rw [List.find?_eq_none]
  intro a ha
  have h := (List.mem_filter.mp ha).2
  simp only [Bool.not_eq_true'] at h
  simp [h]

/-- C8: `remove` fails with a task-not-found error on a non-matching
`where` clause and leaves the state untouched; when the task exists with
both `dueTo` and `repeat` set and its Job Store rows are exactly one SINGLE
and one CRON binding (both live in the engine), the call succeeds,
unschedules both bindings — leaving zero Job Store records for the task id —
and deletes the row. -/
theorem c8_remove_spec (st : SchedState) (dto : TaskWhereDto) :
    (TasksRepository.findOne st.db dto.«where» = none →
      TasksService.remove st dto = (st, .error (.taskNotFound dto.«where».id))) ∧
    (∀ (task : DbTask) (b1 b2 : DbJob),
      TasksRepository.findOne st.db dto.«where» = some task →
      task.dueTo.isSome = true → task.«repeat».isSome = true →
      st.db.jobs.filter (fun j => j.taskId == dto.«where».id) = [b1, b2] →
      b1.type = JobType.SINGLE → b2.type = JobType.CRON → b1.id ≠ b2.id →
      (∃ qj ∈ st.engine.queue, qj.id = b1.id) →
      (∃ s ∈ st.engine.schedulers, s.key = b2.id) →
      (TasksService.remove st dto).2 = .ok task ∧
      (TasksService.remove st dto).1.db.jobs.filter
        (fun j => j.taskId == dto.«where».id) = [] ∧
      TasksRepository.findOne (TasksService.remove st dto).1.db dto.«where» = none) := by
  constructor
  · intro h
    simp [TasksService.remove, h]
  · intro task b1 b2 hfind hdueS hrepS hfilter hb1 hb2 hne hq hs
    obtain ⟨d, hd⟩ : ∃ d, task.dueTo = some d := Option.isSome_iff_exists.mp hdueS
    obtain ⟨c, hc⟩ : ∃ c, task.«repeat» = some c := Option.isSome_iff_exists.mp hrepS
    have hjobs : JobsService.findByTaskId st dto.«where».id = [b1, b2] := by
      simpa [JobsService.findByTaskId, JobsRepository.findByTaskId] using hfilter
    have hfS : [b1, b2].find? (fun j => j.type == JobType.SINGLE) = some b1 := by
      simp [List.find?, hb1]
    have hfC : [b1, b2].find? (fun j => j.type == JobType.CRON) = some b2 := by
      simp only [List.find?, hb1, hb2]
      rfl
    obtain ⟨qj', hqj'⟩ : ∃ qj',
        st.engine.queue.find? (fun j => j.id == b1.id) = some qj' := by
      rcases hq with ⟨qj, hqm, hqid⟩
      exact Option.isSome_iff_exists.mp
        (List.find?_isSome.mpr ⟨qj, hqm, by simp [hqid]⟩)
    have hqid' : qj'.id = b1.id := by simpa using List.find?_some hqj'
    obtain ⟨sc', hsc'⟩ : ∃ sc',
        st.engine.schedulers.find? (fun s => s.key == b2.id) = some sc' := by
      rcases hs with ⟨sc, hsm, hsid⟩
      exact Option.isSome_iff_exists.mp
        (List.find?_isSome.mpr ⟨sc, hsm, by simp [hsid]⟩)
    have hscid' : sc'.key = b2.id := by simpa using List.find?_some hsc'
    refine ⟨?_, ?_, ?_⟩
    · simp only [TasksService.remove, hfind, hd, hc, hjobs, hfS, hfC,
        TasksService.step, TasksService.andThen, TasksService.unscheduleDue,
        TasksService.unscheduleRepeat, JobsService.unscheduleSingle,
        JobsService.unscheduleCron, JobsEngine.unscheduleSingle,
        JobsEngine.unscheduleCron, hqj', hsc', hqid', hscid',
        JobsRepository.remove, TasksRepository.remove]
    · simp only [TasksService.remove, hfind, hd, hc, hjobs, hfS, hfC,
        TasksService.step, TasksService.andThen, TasksService.unscheduleDue,
        TasksService.unscheduleRepeat, JobsService.unscheduleSingle,
        JobsService.unscheduleCron, JobsEngine.unscheduleSingle,
        JobsEngine.unscheduleCron, hqj', hsc', hqid', hscid',
        JobsRepository.remove, TasksRepository.remove]
      rw [filter_comm' (fun j : DbJob => j.id != b2.id)
            (fun j : DbJob => j.taskId == dto.«where».id),
          filter_comm' (fun j : DbJob => j.id != b1.id)
            (fun j : DbJob => j.taskId == dto.«where».id),
          hfilter]
      have hba : (b2.id != b1.id) = true := by
        simp only [bne_iff_ne, ne_eq]
        exact fun hcontra => hne hcontra.symm
      simp [List.filter, hba]
    · simp only [TasksService.remove, hfind, hd, hc, hjobs, hfS, hfC,
        TasksService.step, TasksService.andThen, TasksService.unscheduleDue,
        TasksService.unscheduleRepeat, JobsService.unscheduleSingle,
        JobsService.unscheduleCron, JobsEngine.unscheduleSingle,
        JobsEngine.unscheduleCron, hqj', hsc', hqid', hscid',
        JobsRepository.remove, TasksRepository.remove]
      exact find?_filter_not (matchesWhere dto.«where») st.db.tasks

/-- C8 witness: removing a task with both a SINGLE and a CRON binding (both
live in the engine) succeeds, leaves zero Job Store records for the task id
and deletes the row; removing from a state with no tasks fails and changes
nothing. -/
theorem c8_witness :
    (TasksService.remove Examples.stEmpty Examples.whereT1 =
      (Examples.stEmpty, .error (.taskNotFound "t1"))) ∧
    ((TasksService.remove Examples.stBoth Examples.whereT1).2 = .ok Examples.taskBoth ∧
     (TasksService.remove Examples.stBoth Examples.whereT1).1.db.jobs.filter
       (fun j => j.taskId == Examples.whereT1.«where».id) = [] ∧
     TasksRepository.findOne (TasksService.remove Examples.stBoth Examples.whereT1).1.db
       Examples.whereT1.«where» = none) :=
  ⟨(c8_remove_spec Examples.stEmpty Examples.whereT1).1 (by decide),
   (c8_remove_spec Examples.stBoth Examples.whereT1).2 Examples.taskBoth
     Examples.binding0 Examples.binding1 (by decide) (by decide) (by decide)
     (by decide) (by decide) (by decide) (by decide)
     ⟨Examples.qjob0, by decide⟩ ⟨Examples.scheduler1, by decide⟩⟩

/-- C7: the TASK_DUE handler is idempotent on task state — for a task
already `FAILED` or `DONE` it performs no update at all (the whole state,
including `updatedAt`, is untouched) yet still republishes `TASK_DUE` with
payload `{task: {id, userId}}`; for a task in `NOT_STARTED` or
`IN_PROGRESS` it transitions exactly the matching rows to `FAILED`
(touching nothing else) and republishes the same event. -/
theorem c7_handle_due_idempotent (st : SchedState) (now : Int) (p : TaskJobPayload)
    (task : DbTask)
    (hfind : TasksRepository.findOne st.db { id := p.taskId, userId := none } = some task) :
    ((task.status = .FAILED ∨ task.status = .DONE) →
      TaskEventsController.handleDue st now p =
        (st, [{ eventName := TaskEvent.DUE,
                payload := { task := { id := task.id, userId := task.userId } } }], none)) ∧
    ((task.status = .NOT_STARTED ∨ task.status = .IN_PROGRESS) →
      ∃ st', TaskEventsController.handleDue st now p =
          (st', [{ eventName := TaskEvent.DUE,
                   payload := { task := { id := task.id, userId := task.userId } } }], none) ∧
        st'.db.tasks = st.db.tasks.map (fun t =>
          if matchesWhere { id := task.id, userId := some task.userId } t then
            { t with status := .FAILED, updatedAt := now } else t) ∧
        st'.db.jobs = st.db.jobs ∧ st'.db.schedules = st.db.schedules ∧
        st'.engine = st.engine) := by
  constructor
  · intro hstat
    have hcond : (task.status == TaskStatus.NOT_STARTED ||
        task.status == TaskStatus.IN_PROGRESS) = false := by
      rcases hstat with h | h <;> rw [h] <;> rfl
    simp [TaskEventsController.handleDue, TaskEventsController.handleDueBody,
      TasksService.findOne, hfind, hcond, TaskEventsController.publish]
  · intro hstat
    have hcond : (task.status == TaskStatus.NOT_STARTED ||
        task.status == TaskStatus.IN_PROGRESS) = true := by
      rcases hstat with h | h <;> rw [h] <;> rfl
    have hmem : task ∈ st.db.tasks := List.mem_of_find?_eq_some hfind
    have hmatch : matchesWhere { id := task.id, userId := some task.userId } task = true := by
      simp [matchesWhere]
    have hfil : task ∈ st.db.tasks.filter
        (matchesWhere { id := task.id, userId := some task.userId }) :=
      List.mem_filter.mpr ⟨hmem, hmatch⟩
    obtain ⟨r, hr⟩ : ∃ r, (st.db.tasks.filter
        (matchesWhere { id := task.id, userId := some task.userId })).head? = some r := by
      cases hfl : st.db.tasks.filter
          (matchesWhere { id := task.id, userId := some task.userId }) with
      | nil => rw [hfl] at hfil; cases hfil
      | cons a l => exact ⟨a, rfl⟩
    refine ⟨{ st with db := { st.db with tasks := st.db.tasks.map (fun t =>
        if matchesWhere { id := task.id, userId := some task.userId } t then
          { t with status := .FAILED, updatedAt := now } else t) } }, ?_, rfl, rfl, rfl, rfl⟩
    simp [TaskEventsController.handleDue, TaskEventsController.handleDueBody,
      TasksService.findOne, hfind, hcond, TasksService.update, TasksRepository.update, hr,
      TasksService.reconcileJobs, TaskUpdateFields.empty, TasksService.andThen,
      TaskEventsController.publish, JobsService.findByTaskId, applyRepoPatch, Patch.apply]

/-- C7 witness: the two halves evaluated concretely — a `FAILED` task is
left untouched while the event is still republished, and a `NOT_STARTED`
task is transitioned to `FAILED`. -/
theorem c7_witness :
    (TaskEventsController.handleDue Examples.stFailed 1000 Examples.payloadT1 =
      (Examples.stFailed,
       [{ eventName := TaskEvent.DUE,
          payload := { task := { id := Examples.task1.id,
                                 userId := Examples.task1.userId } } }], none)) ∧
    (∃ st', TaskEventsController.handleDue Examples.stSingle 1000 Examples.payloadT1 =
        (st', [{ eventName := TaskEvent.DUE,
                 payload := { task := { id := Examples.task1.id,
                                        userId := Examples.task1.userId } } }], none) ∧
      st'.db.tasks = Examples.stSingle.db.tasks.map (fun t =>
        if matchesWhere { id := Examples.task1.id,
                          userId := some Examples.task1.userId } t then
          { t with status := .FAILED, updatedAt := 1000 } else t) ∧
      st'.db.jobs = Examples.stSingle.db.jobs ∧
      st'.db.schedules = Examples.stSingle.db.schedules ∧
      st'.engine = Examples.stSingle.engine) :=
  ⟨(c7_handle_due_idempotent Examples.stFailed 1000 Examples.payloadT1
      { Examples.task1 with status := .FAILED } (by decide)).1 (Or.inl rfl),
   (c7_handle_due_idempotent Examples.stSingle 1000 Examples.payloadT1
      Examples.task1 (by decide)).2 (Or.inl rfl)⟩

/-- C9: the TASK_REPEATED handler resets the found task's status to
`NOT_STARTED` unconditionally (whatever the current status, including
`IN_PROGRESS`), persists that update (refreshing `updatedAt`), and
publishes `TASK_REPEATED` with payload exactly `{task: {id, userId}}`. -/
theorem c9_handle_repetition_resets (st : SchedState) (now : Int) (p : TaskJobPayload)
    (task : DbTask)
    (hfind : TasksRepository.findOne st.db { id := p.taskId, userId := none } = some task) :
    ∃ st', TaskEventsController.handleRepetition st now p =
        (st', [{ eventName := TaskEvent.REPEATED,
                 payload := { task := { id := task.id, userId := task.userId } } }], none) ∧
      st'.db.tasks = st.db.tasks.map (fun t =>
        if matchesWhere { id := task.id, userId := some task.userId } t then
          { t with status := .NOT_STARTED, updatedAt := now } else t) ∧
      st'.db.jobs = st.db.jobs ∧ st'.db.schedules = st.db.schedules ∧
      st'.engine = st.engine := by
  have hmem : task ∈ st.db.tasks := List.mem_of_find?_eq_some hfind
  have hmatch : matchesWhere { id := task.id, userId := some task.userId } task = true := by
    simp [matchesWhere]
  have hfil : task ∈ st.db.tasks.filter
      (matchesWhere { id := task.id, userId := some task.userId }) :=
    List.mem_filter.mpr ⟨hmem, hmatch⟩
  obtain ⟨r, hr⟩ : ∃ r, (st.db.tasks.filter
      (matchesWhere { id := task.id, userId := some task.userId })).head? = some r := by
    cases hfl : st.db.tasks.filter
        (matchesWhere { id := task.id, userId := some task.userId }) with
    | nil => rw [hfl] at hfil; cases hfil
    | cons a l => exact ⟨a, rfl⟩
  refine ⟨{ st with db := { st.db with tasks := st.db.tasks.map (fun t =>
      if matchesWhere { id := task.id, userId := some task.userId } t then
        { t with status := .NOT_STARTED, updatedAt := now } else t) } }, ?_, rfl, rfl, rfl, rfl⟩
  simp [TaskEventsController.handleRepetition, TaskEventsController.handleRepetitionBody,
    TasksService.findOne, hfind, TasksService.update, TasksRepository.update, hr,
    TasksService.reconcileJobs, TaskUpdateFields.empty, TasksService.andThen,
    TaskEventsController.publish, JobsService.findByTaskId, applyRepoPatch, Patch.apply]

/-- C9 witness: the reset evaluated on a task currently `IN_PROGRESS`. -/
theorem c9_witness :
    ∃ st', TaskEventsController.handleRepetition Examples.stInProgress 1000 Examples.payloadT1 =
        (st', [{ eventName := TaskEvent.REPEATED,
                 payload := { task := { id := Examples.task1.id,
                                        userId := Examples.task1.userId } } }], none) ∧
      st'.db.tasks = Examples.stInProgress.db.tasks.map (fun t =>
        if matchesWhere { id := Examples.task1.id,
                          userId := some Examples.task1.userId } t then
          { t with status := .NOT_STARTED, updatedAt := 1000 } else t) ∧
      st'.db.jobs = Examples.stInProgress.db.jobs ∧
      st'.db.schedules = Examples.stInProgress.db.schedules ∧
      st'.engine = Examples.stInProgress.engine :=
  c9_handle_repetition_resets Examples.stInProgress 1000 Examples.payloadT1
    { Examples.task1 with status := .IN_PROGRESS } (by decide)

/-- C10: both event handlers wrap their whole body in a logging
`try`/`catch` and return normally, so a body failure — in this sequential
model, a failed task lookup or a failed status update — yields a logged
error, republishes nothing, and propagates nothing to the broker; in
particular a missing task makes either handler return the untouched state
with no events and only a logged not-found error. -/
theorem c10_handlers_catch_all (st : SchedState) (now : Int) (p : TaskJobPayload) :
    (∀ st' e, TaskEventsController.handleDueBody st now p = (st', .error e) →
      TaskEventsController.handleDue st now p = (st', [], some e)) ∧
    (∀ st' e, TaskEventsController.handleRepetitionBody st now p = (st', .error e) →
      TaskEventsController.handleRepetition st now p = (st', [], some e)) ∧
    (TasksRepository.findOne st.db { id := p.taskId, userId := none } = none →
      TaskEventsController.handleDue st now p = (st, [], some (.taskNotFound p.taskId)) ∧
      TaskEventsController.handleRepetition st now p =
        (st, [], some (.taskNotFound p.taskId))) := by
  refine ⟨?_, ?_, ?_⟩
  · intro st' e h
    simp [TaskEventsController.handleDue, h]
  · intro st' e h
    simp [TaskEventsController.handleRepetition, h]
  · intro h
    constructor
    · simp [TaskEventsController.handleDue, TaskEventsController.handleDueBody,
        TasksService.findOne, h]
    · simp [TaskEventsController.handleRepetition,
        TaskEventsController.handleRepetitionBody, TasksService.findOne, h]

/-- C10 witness: both handlers evaluated on a state with no tasks — the
lookup fails inside the body, the error is only logged, and nothing is
republished. -/
theorem c10_witness :
    TaskEventsController.handleDue Examples.stEmpty 1000 Examples.payloadT1 =
      (Examples.stEmpty, [], some (.taskNotFound "t1")) ∧
    TaskEventsController.handleRepetition Examples.stEmpty 1000 Examples.payloadT1 =
      (Examples.stEmpty, [], some (.taskNotFound "t1")) :=
  ⟨(c10_handlers_catch_all Examples.stEmpty 1000 Examples.payloadT1).1
      Examples.stEmpty (.taskNotFound "t1") (by decide),
   (c10_handlers_catch_all Examples.stEmpty 1000 Examples.payloadT1).2.1
      Examples.stEmpty (.taskNotFound "t1") (by decide)⟩

end Auratyme
